import Mathlib

/-!
# Verification of the valuation / scoring / sold-detection engine

Shallow embedding of the core engine of the vintage-guitar tracking
repository (scripts/valuation.py, scripts/scorer.py, scripts/searcher.py,
scripts/ml_predict.py) together with proofs of the specification claims.

Numeric idealisation: Python floats are modelled as exact rationals `ℚ`
(all scorer arithmetic is +, -, *, /, min, max, so this is faithful up to
floating-point rounding); the single use of `math.pow` in
`compute_learned_rates` is modelled over `ℝ` with `Real.rpow`.
Python's `round(x, n)` (banker's rounding on floats) is idealised as
round-half-up on exact rationals/reals.
-/

namespace Guitars

/-! ## Basics: rounding, substrings, word splitting -/

/-- `round(x, 1)` over exact rationals. -/
def round1 (x : ℚ) : ℚ := (round (x * 10) : ℤ) / 10

/-- `round(x, 2)` over exact rationals. -/
def round2 (x : ℚ) : ℚ := (round (x * 100) : ℤ) / 100

/-!
String primitives.  The embedding re-implements the handful of string
operations the engine uses (`lower`, `strip`, substring membership,
splitting) by structural recursion over the character list, so that every
definition evaluates by kernel reduction on concrete inputs.  Unicode
niceties of Python's `str.lower` are idealised to ascii case mapping. -/

/-- Ascii lowercase mapping (`str.lower`, idealised to ascii). -/
def charLower (c : Char) : Char :=
  if 'A' ≤ c ∧ c ≤ 'Z' then Char.ofNat (c.toNat + 32) else c

/-- `s.lower()` (ascii). -/
def strLower (s : String) : String := ⟨s.data.map charLower⟩

/-- Python whitespace for `str.strip()`. -/
def isPySpace (c : Char) : Bool :=
  c = ' ' ∨ c = '\t' ∨ c = '\n' ∨ c = '\x0d' ∨ c = '\x0b' ∨ c = '\x0c'

/-- `s.strip()`: drop leading and trailing whitespace. -/
def strStrip (s : String) : String :=
  ⟨((s.data.dropWhile isPySpace).reverse.dropWhile isPySpace).reverse⟩

/-- `len(s) == 0`, the emptiness test behind Python truthiness of strings. -/
def strIsEmpty (s : String) : Bool := s.data.isEmpty

/-- Whether `needle` occurs at the front of `hay`. -/
def charsPrefixAt : List Char → List Char → Bool
  | [], _ => true
  | _ :: _, [] => false
  | a :: as, b :: bs => a = b && charsPrefixAt as bs

/-- Whether `needle` occurs anywhere in `hay`. -/
def charsSubstr (needle : List Char) : List Char → Bool
  | [] => needle.isEmpty
  | c :: rest => charsPrefixAt needle (c :: rest) || charsSubstr needle rest

/-- Python's substring test `needle in hay` for strings. -/
def substrOf (needle hay : String) : Bool :=
  charsSubstr needle.data hay.data

/-- Lowercase ascii letter test (`[a-z]`). -/
def isLowerAlpha (c : Char) : Bool := 'a' ≤ c ∧ c ≤ 'z'

/-- Splitting core of `re.split(r"[^a-z]+", s)` with empty fragments
dropped: maximal runs of lowercase letters, accumulator-style. -/
def lowerWordsAux : List Char → List Char → List String
  | [], acc => if acc.isEmpty then [] else [⟨acc.reverse⟩]
  | c :: rest, acc =>
      if isLowerAlpha c then lowerWordsAux rest (c :: acc)
      else if acc.isEmpty then lowerWordsAux rest []
      else ⟨acc.reverse⟩ :: lowerWordsAux rest []

/-- `set(re.split(r"[^a-z]+", s.lower())) - {""}` as a word list: the
maximal lowercase-letter runs of `s.lower()`. -/
def lowerWords (s : String) : List String :=
  lowerWordsAux (strLower s).data []

/-- Two word lists share a common word (Python `bool(set(xs) & set(ys))`). -/
def wordsOverlap (xs ys : List String) : Bool :=
  xs.any (fun w => ys.any (fun y => w = y))

/-- Association-list lookup by key (Python dict read `d[k]` / `k in d`). -/
def alistLookup {β : Type} (k : String) : List (String × β) → Option β
  | [] => none
  | (k', v) :: rest => if k' = k then some v else alistLookup k rest

/-- `s.split("|", 1)` on the character list: the parts before and after
the first `|`.  All callers apply it to keys of the form
`"brand|model"` built by `rateKey`, which always contain a `|`; the
bar-free fallback `(l, [])` is unreachable there. -/
def splitBar1 : List Char → List Char × List Char
  | [] => ([], [])
  | c :: rest =>
      if c = '|' then ([], rest)
      else
        let p := splitBar1 rest
        (c :: p.1, p.2)

/-! ## Data model

Records carried between the crawler, the scorer and the persisted stores
(listing rows as produced by `read_active_listings`, collection entries,
knowledge-base entries, the budget configuration, and ML inference results).
-/

/-- An active listing as consumed by `score_listing`:
string fields are always present (possibly empty), price and the
Reverb market range are nullable. -/
structure Listing where
  brand : String
  model : String
  type : String
  year : String
  condition : String
  price : Option ℚ
  reverbLo : Option ℚ
  reverbHi : Option ℚ

/-- An owned instrument from collection.json (`_score_fit` reads
brand, model and type). -/
structure CollEntry where
  brand : String
  model : String
  type : String

/-- An entry of the iconic-models knowledge base: brand, model,
optional inclusive golden-era year range, popularity boost
(`iconic.get("boost", 0)` — an absent boost behaves as 0). -/
structure IconicEntry where
  brand : String
  model : String
  goldenEra : Option (ℕ × ℕ)
  boost : ℚ

/-- An entry of the top-guitarists knowledge base: rank plus the
(brand, model) pairs the guitarist is associated with. -/
structure Guitarist where
  rank : ℤ
  guitars : List (String × String)

/-- budget.json as read by `score_listing`: a partial weight map
(`None` = key absent), the `ml_enabled` flag (absent = false) and the
optional `ml_blend` factor (`budget.get("ml_blend", 0.3)`). -/
structure Budget where
  weights : String → Option ℚ
  mlEnabled : Bool
  mlBlend : Option ℚ

/-- Per-dimension breakdown dict built by `score_listing`. -/
structure Breakdown where
  value : ℚ
  appreciation : ℚ
  fit : ℚ
  condition : ℚ
  iconic : ℚ
  mlTotal : Option ℚ
  mlBuyProb : Option ℚ
  mlPrice : Option ℚ
  ruleTotal : ℚ

/-- Result dict of `ml_predict.ml_score_listing` (each field nullable). -/
structure MlResult where
  mlTotal : Option ℚ
  mlBuyProb : Option ℚ
  mlPrice : Option ℚ

/-- The knowledge-base / persisted-state environment the valuation and
scoring functions read: brand tiers, learned appreciation rates, iconic
models, top guitarists, and the state of the optional ML layer.  Mirrors
the module-level caches loaded once per process.  `mlModuleLoaded` is the
truthiness of the imported `ml_predict` module; `mlModels` is its loaded
model cache; `mlScore` is the (unembedded, model-driven) inference call
`ml_predict.ml_score_listing`, treated as an uninterpreted function. -/
structure Env where
  premiumBrands : List String
  majorBrands : List String
  learnedRates : String → Option ℚ
  iconicModels : List IconicEntry
  guitarists : List Guitarist
  mlModuleLoaded : Bool
  mlModels : List String
  mlScore : Listing → List CollEntry → Budget → Breakdown → Option MlResult

/-- `ml_predict.is_ml_available()`: at least one model in the cache. -/
def isMlAvailable (env : Env) : Bool :=
  !env.mlModels.isEmpty

/-! ## valuation.py — year parsing and the appreciation model -/

/-- `_parse_year` scanning core: first (leftmost) run of 4 consecutive
ascii digits in the character list, as a number (`re.search(r"\d\x7b4\x7d", s)`). -/
def findYear4 : List Char → Option ℕ
  | c1 :: c2 :: c3 :: c4 :: rest =>
      if c1.isDigit && c2.isDigit && c3.isDigit && c4.isDigit then
        some ((c1.toNat - 48) * 1000 + (c2.toNat - 48) * 100 +
              (c3.toNat - 48) * 10 + (c4.toNat - 48))
      else findYear4 (c2 :: c3 :: c4 :: rest)
  | _ => none

/-- `_parse_year(raw)`: extract the first 4-digit year, `None` when absent. -/
def parseYear (raw : String) : Option ℕ :=
  findYear4 raw.data

/-- `_ERA_RATES`: `(era_start, era_end, rate_premium, rate_major, rate_minor)`. -/
def eraRates : List (ℕ × ℕ × ℚ × ℚ × ℚ) :=
  [ (0,    1950, 12/100, 10/100, 5/100),
    (1950, 1965, 10/100,  8/100, 4/100),
    (1965, 1980,  6/100,  5/100, 3/100),
    (1980, 2000,  4/100,  3/100, 2/100),
    (2000, 9999,  2/100,  1/100, 0) ]

/-- Brand tier labels. -/
inductive Tier
  | premium
  | major
  | minor
deriving DecidableEq, Repr

/-- `_brand_tier(brand)`: word-overlap lookup against the premium and major
brand sets, defaulting to minor. -/
def brandTier (env : Env) (brand : String) : Tier :=
  let words := lowerWords brand
  if wordsOverlap words env.premiumBrands then .premium
  else if wordsOverlap words env.majorBrands then .major
  else .minor

/-- The lowercase `"brand|model"` key (`f"..."` in `snapshot_prices`,
`appreciation_rate` and `_build_iconic_scores`). -/
def rateKey (brand model : String) : String :=
  strLower brand ++ "|" ++ strLower model

/-- Era-table scan of `appreciation_rate`: first era with
`start <= yr < end`, choosing the column for the tier; `0.02` fallback
when no era matches. -/
def eraLookup (tier : Tier) (yr : ℕ) : List (ℕ × ℕ × ℚ × ℚ × ℚ) → ℚ
  | [] => 2/100
  | (s, e, rp, rmj, rmn) :: rest =>
      if s ≤ yr ∧ yr < e then
        match tier with
        | .premium => rp
        | .major   => rmj
        | .minor   => rmn
      else eraLookup tier yr rest

/-- `appreciation_rate(brand, year, model=None)`.

Learned `"brand|model"` rate first (only when `model` is truthy, i.e.
present and non-empty); otherwise `yr = _parse_year(year) or 1970`
(note: a parsed year of `0` is falsy in Python and also falls back to
1970) followed by the static era/tier table. -/
def appreciationRate (env : Env) (brand : String) (year : String)
    (model : Option String) : ℚ :=
  let viaTable : ℚ :=
    let yr := match parseYear year with
      | some n => if n = 0 then 1970 else n
      | none => 1970
    eraLookup (brandTier env brand) yr eraRates
  match model with
  | some m =>
      if strIsEmpty m then viaTable
      else
        match env.learnedRates (rateKey brand m) with
        | some r => r
        | none => viaTable
  | none => viaTable

/-! ## scorer.py — the five sub-scores -/

/-- `_score_value(price, reverb_lo, reverb_hi)`: 0–100 deal quality of a
price against the Reverb market range; 50 when any input is `None`. -/
def scoreValue (price reverbLo reverbHi : Option ℚ) : ℚ :=
  match price, reverbLo, reverbHi with
  | some p, some lo, some hi =>
      let mid := (lo + hi) / 2
      if p ≤ lo then 100
      else if p ≤ mid then 100 - 25 * (p - lo) / (mid - lo)
      else if p ≤ hi then 75 - 25 * (p - mid) / (hi - mid)
      else max 0 (50 - 50 * ((p - hi) / hi))
  | _, _, _ => 50

/-- `_match_iconic_model(brand, model)`: best iconic-model entry whose brand
words overlap the listing brand's words and whose lowercase model string is
a substring of (or contains) the listing's lowercase model, keeping the
entry with the strictly longest `entry_model`; `None` when the knowledge
base is empty or nothing matches. -/
def matchIconicModel (env : Env) (brand model : String) : Option IconicEntry :=
  match env.iconicModels with
  | [] => none
  | _ =>
      let brandWords := lowerWords brand
      let modelL := strLower model
      (env.iconicModels.foldl
        (fun (best : Option IconicEntry × ℕ) entry =>
          let entryModel := strLower entry.model
          if wordsOverlap brandWords (lowerWords entry.brand) &&
             (substrOf entryModel modelL || substrOf modelL entryModel) &&
             decide (best.2 < entryModel.length) then
            (some entry, entryModel.length)
          else best)
        (none, 0)).1

/-- `_score_appreciation(brand, year, model=None)`: the annual rate mapped
linearly onto 0–100 against a 12 % ceiling, plus a +20 golden-era boost
(capped at 100) when the parsed year falls in a matched iconic model's
golden era (a parsed year of 0 is falsy and gets no boost). -/
def scoreAppreciation (env : Env) (brand year : String)
    (model : Option String) : ℚ :=
  let rate := appreciationRate env brand year model
  let score := min 100 (rate / (12/100) * 100)
  match matchIconicModel env brand (model.getD "") with
  | some ic =>
      match parseYear year, ic.goldenEra with
      | some yr, some era =>
          if yr ≠ 0 ∧ era.1 ≤ yr ∧ yr ≤ era.2 then min 100 (score + 20)
          else score
      | _, _ => score
  | none => score

/-- `_score_fit(entry, collection)`: 50 base, −25 exact duplicate, else +20
new brand, +15 under-represented type, + iconic boost, clamped to [0,100];
with an empty collection only the iconic boost applies. -/
def scoreFit (env : Env) (entry : Listing) (collection : List CollEntry) : ℚ :=
  match collection with
  | [] =>
      let score : ℚ := 50
      let score := match matchIconicModel env entry.brand entry.model with
        | some ic => score + ic.boost
        | none => score
      max 0 (min 100 score)
  | _ =>
      let brandL := strLower entry.brand
      let modelL := strLower entry.model
      let typeL := strLower entry.type
      let score : ℚ := 50
      let score :=
        if collection.any (fun g => strLower g.brand = brandL ∧ strLower g.model = modelL)
        then score - 25
        else if collection.all (fun g => strLower g.brand ≠ brandL)
        then score + 20
        else score
      let score :=
        if !strIsEmpty typeL then
          let typeCount := (collection.filter (fun g => strLower g.type = typeL)).length
          if (typeCount : ℚ) / (collection.length : ℚ) < 1/4 then score + 15 else score
        else score
      let score := match matchIconicModel env entry.brand entry.model with
        | some ic => score + ic.boost
        | none => score
      max 0 (min 100 score)

/-- `_CONDITION_SCORES`, in the source's (insertion) order. -/
def conditionScores : List (String × ℚ) :=
  [ ("mint", 100), ("near mint", 95), ("excellent+", 90), ("excellent", 85),
    ("excellent-", 80), ("very good+", 70), ("very good", 60),
    ("very good-", 50), ("good+", 40), ("good", 30), ("good-", 20),
    ("fair", 10), ("poor", 0) ]

/-- `key.replace("+", " plus").replace("-", " minus")` (the replaced
patterns are single characters, so per-character expansion is exact). -/
def plusMinusExpand (k : String) : String :=
  ⟨(k.data.map (fun c =>
      if c = '+' then " plus".data
      else if c = '-' then " minus".data
      else [c])).flatten⟩

/-- The fuzzy-match loop of `_score_condition`: first table entry whose
expanded key occurs in the normalized string, or which contains / is
contained in it; 50 when none matches. -/
def condLoop (normalized : String) : List (String × ℚ) → ℚ
  | [] => 50
  | (k, s) :: rest =>
      if substrOf (plusMinusExpand k) normalized then s
      else if substrOf normalized k || substrOf k normalized then s
      else condLoop normalized rest

/-- `_score_condition(condition_str)`: exact table match on the stripped
lowercase string, then the fuzzy loop; 50 for empty or unknown input. -/
def scoreCondition (conditionStr : String) : ℚ :=
  if strIsEmpty conditionStr then 50
  else
    let normalized := strLower (strStrip conditionStr)
    match alistLookup normalized conditionScores with
    | some s => s
    | none => condLoop normalized conditionScores

/-- Insertion-ordered add of `w` onto key `k` of an association list,
mirroring `d[k] = d.get(k, 0.0) + w` on a Python (insertion-ordered) dict. -/
def upsertAdd (k : String) (w : ℚ) : List (String × ℚ) → List (String × ℚ)
  | [] => [(k, w)]
  | (k', v) :: rest =>
      if k' = k then (k', v + w) :: rest else (k', v) :: upsertAdd k w rest

/-- `_build_iconic_scores()`: rank-weighted association counts per
`"brand|model"` key ((101 − rank)/100 per guitarist), plus the maximum
weighted count (1.0 for an empty table). -/
def buildIconicScores (gs : List Guitarist) : List (String × ℚ) × ℚ :=
  let modelScores := gs.foldl
    (fun acc g =>
      let weight := ((101 : ℚ) - (g.rank : ℚ)) / 100
      g.guitars.foldl (fun acc2 bm => upsertAdd (rateKey bm.1 bm.2) weight acc2) acc)
    []
  let maxScore := match modelScores with
    | [] => 1
    | x :: xs => xs.foldl (fun m p => max m p.2) x.2
  (modelScores, maxScore)

/-- `_score_iconic(brand, model)`: neutral 50 with an empty guitarist
knowledge base; exact `"brand|model"` key hit first, then the substring
scan keeping the strictly longest key-model match; 0 when nothing matches. -/
def scoreIconic (env : Env) (brand model : String) : ℚ :=
  match env.guitarists with
  | [] => 50
  | _ =>
      let built := buildIconicScores env.guitarists
      let modelScores := built.1
      let maxScore := built.2
      let brandL := strLower brand
      let modelL := strLower model
      let key := brandL ++ "|" ++ modelL
      match alistLookup key modelScores with
      | some w => min 100 (w / maxScore * 100)
      | none =>
          let best := modelScores.foldl
            (fun (best : ℚ × ℕ) p =>
              let kparts := splitBar1 p.1.data
              let kBrand : String := ⟨kparts.1⟩
              let kModel : String := ⟨kparts.2⟩
              if wordsOverlap (lowerWords brandL) (lowerWords kBrand) &&
                 (substrOf kModel modelL || substrOf modelL kModel) &&
                 decide (best.2 < kModel.length) then
                (p.2, kModel.length)
              else best)
            (0, 0)
          if 0 < best.2 then min 100 (best.1 / maxScore * 100) else 0

/-! ## scorer.py — `score_listing` -/

/-- `score_listing(entry, collection, budget)`.

Returns `none` exactly when Python raises `KeyError`, i.e. when one of the
three base weight keys `"value"`, `"appreciate"`, `"fit"` is missing from
`budget["weights"]`; the `"condition"` and `"iconic"` keys are optional and
merely gate their dimensions.  ML blending applies only when `ml_enabled`
is truthy, the `ml_predict` module imported, at least one model is loaded,
the inference call returns a result, and that result carries an `ml_total`. -/
def scoreListing (env : Env) (entry : Listing) (collection : List CollEntry)
    (budget : Budget) : Option (ℚ × Breakdown) :=
  let w := budget.weights
  let sVal := scoreValue entry.price entry.reverbLo entry.reverbHi
  let sApp := scoreAppreciation env entry.brand entry.year (some entry.model)
  let sFit := scoreFit env entry collection
  let sCond := scoreCondition entry.condition
  let sIcon := scoreIconic env entry.brand entry.model
  match w "value", w "appreciate", w "fit" with
  | some wv, some wa, some wf =>
      let ruleTotal := wv * sVal + wa * sApp + wf * sFit
      let ruleTotal := match w "condition" with
        | some wc => ruleTotal + wc * sCond
        | none => ruleTotal
      let ruleTotal := match w "iconic" with
        | some wi => ruleTotal + wi * sIcon
        | none => ruleTotal
      let breakdown : Breakdown :=
        { value := round1 sVal, appreciation := round1 sApp,
          fit := round1 sFit, condition := round1 sCond,
          iconic := round1 sIcon,
          mlTotal := none, mlBuyProb := none, mlPrice := none,
          ruleTotal := round1 ruleTotal }
      if budget.mlEnabled && env.mlModuleLoaded && isMlAvailable env then
        let mlBlend := budget.mlBlend.getD (3/10)
        match env.mlScore entry collection budget breakdown with
        | some r =>
            let total := match r.mlTotal with
              | some mt => (1 - mlBlend) * ruleTotal + mlBlend * mt
              | none => ruleTotal
            some (round1 total,
              { breakdown with
                  mlTotal := r.mlTotal, mlBuyProb := r.mlBuyProb,
                  mlPrice := r.mlPrice })
        | none => some (round1 ruleTotal, breakdown)
      else some (round1 ruleTotal, breakdown)
  | _, _, _ => none

/-! ## valuation.py — price snapshots (`snapshot_prices`) -/

/-- One stored price snapshot: ISO dates are idealised as integer day
numbers, so `(d1 - d0).days` becomes plain subtraction. -/
structure SnapEntry where
  date : ℤ
  reverbLo : ℚ
  reverbHi : ℚ
  mid : ℚ
deriving DecidableEq, Repr

/-- The `"snapshots"` table of price_history.json: per-key ordered snapshot
lists.  A key absent from the JSON object is modelled as the empty list
(observationally equivalent: the code only ever reads a key's list, and
`snapshots[key] = []` is inserted before any append). -/
def SnapStore : Type := String → List SnapEntry

/-- price_history.json contents: snapshots plus the learned-rate table
(rates are reals, see `computeLearnedRates`). -/
structure History where
  snapshots : SnapStore
  learnedRates : String → Option ℝ

/-- The default history used when the file is missing — or unparsable. -/
def emptyHistory : History :=
  { snapshots := fun _ => [], learnedRates := fun _ => none }

/-- State of a persisted JSON file on disk: never created, present but not
parseable, or parsed contents. -/
inductive FileState (α : Type) where
  | missing
  | unparsable
  | parsed (contents : α)

/-- The load prologue of `snapshot_prices`:
`history = default; if exists: try: history = json.load(f) except: pass`.
An unparsable file silently degrades to the empty default. -/
def loadHistoryOr (fs : FileState History) : History :=
  match fs with
  | .parsed h => h
  | .missing => emptyHistory
  | .unparsable => emptyHistory

/-- A listing is recorded by `snapshot_prices` only when both Reverb bounds
are present and the stripped brand and model are non-empty. -/
def snapValid (l : Listing) : Prop :=
  l.reverbLo ≠ none ∧ l.reverbHi ≠ none ∧
  ¬ strIsEmpty (strStrip l.brand) ∧ ¬ strIsEmpty (strStrip l.model)

instance (l : Listing) : Decidable (snapValid l) := by
  unfold snapValid; infer_instance

/-- The snapshot key of a listing (brand and model stripped then
lowercased, joined by `|`). -/
def snapKey (l : Listing) : String :=
  rateKey (strStrip l.brand) (strStrip l.model)

/-- The body of the `for listing in listings` loop of `snapshot_prices`:
skip invalid listings; skip when the key's list already ends with today's
date; otherwise append today's `(date, lo, hi, mid)` and bump the count. -/
def snapshotStep (today : ℤ) (st : SnapStore × ℕ) (l : Listing) : SnapStore × ℕ :=
  match l.reverbLo, l.reverbHi with
  | some lo, some hi =>
      if strIsEmpty (strStrip l.brand) || strIsEmpty (strStrip l.model) then st
      else
        let key := snapKey l
        let cur := st.1 key
        if (match cur.getLast? with
            | some e => decide (e.date = today)
            | none => false) then st
        else
          (Function.update st.1 key
            (cur ++ [{ date := today, reverbLo := lo, reverbHi := hi,
                       mid := round2 ((lo + hi) / 2) }]),
           st.2 + 1)
  | _, _ => st

/-- The snapshot-recording loop over all listings (store + count). -/
def snapshotRun (today : ℤ) (listings : List Listing) (snaps : SnapStore) :
    SnapStore × ℕ :=
  listings.foldl (snapshotStep today) (snaps, 0)

/-- `snapshot_prices(listings)` end to end: load (or silently default) the
history file, run the recording loop, and return the history that is
unconditionally written back, together with the count. -/
def snapshotPrices (fs : FileState History) (today : ℤ)
    (listings : List Listing) : History × ℕ :=
  let history := loadHistoryOr fs
  let r := snapshotRun today listings history.snapshots
  ({ history with snapshots := r.1 }, r.2)

/-! ## valuation.py — `compute_learned_rates` -/

open scoped Classical in
/-- Python's `math.pow(x, y)` on idealised reals: it raises `ValueError`
(modelled `none`) for a negative base with a non-integral exponent and for
a zero base with a negative exponent; everywhere else it agrees with
`Real.rpow` (which for a negative base and integral exponent `n` equals
`|x|^n · cos(πn) = ±|x|^n`, exactly `math.pow`'s sign). -/
noncomputable def pyPow (x y : ℝ) : Option ℝ :=
  if x < 0 ∧ ¬ ∃ n : ℤ, y = (n : ℝ) then none
  else if x = 0 ∧ y < 0 then none
  else some (Real.rpow x y)

/-- `rate = pow(mid1/mid0, 1.0 / (days/365.0)) - 1`.  `none` models an
uncaught exception: `ZeroDivisionError` from `mid1/mid0` when `mid0 = 0`
or from `1.0/years` when `days = 0`, and `ValueError` from `math.pow`
(see `pyPow`). -/
noncomputable def annualizedRate (mid0 mid1 : ℝ) (days : ℤ) : Option ℝ :=
  if mid0 = 0 then none
  else
    let ratio := mid1 / mid0
    let years := (days : ℝ) / 365
    if years = 0 then none
    else (pyPow ratio (1 / years)).map (fun p => p - 1)

/-- `max(-0.20, min(0.30, rate))`. -/
noncomputable def clampRate (x : ℝ) : ℝ := max (-(20/100)) (min (30/100) x)

/-- `round(x, 4)` over `ℝ`. -/
noncomputable def round4R (x : ℝ) : ℝ := (round (x * 10000) : ℤ) / 10000

/-- Per-key body of `compute_learned_rates`.  `some none` is a guarded
`continue` (fewer than 2 snapshots, first-to-last span below `min_days`,
or non-positive earliest midpoint): the key gets no rate.  `some (some r)`
is a computed rate.  `none` is an uncaught `ValueError`/
`ZeroDivisionError` escaping `compute_learned_rates`: the whole pass dies
there, and nothing is written. -/
noncomputable def learnedRateFor (minDays : ℤ) (points : List SnapEntry) :
    Option (Option ℝ) :=
  if points.length < 2 then some none
  else
    match points.head?, points.getLast? with
    | some earliest, some latest =>
        let days := latest.date - earliest.date
        if days < minDays then some none
        else if earliest.mid ≤ 0 then some none
        else
          match annualizedRate (earliest.mid : ℝ) (latest.mid : ℝ) days with
          | some rate => some (some (round4R (clampRate rate)))
          | none => none
    | _, _ => some none

/-- `compute_learned_rates(min_days=30)` per key of the snapshot store
(keys not in the store read as the empty list and get `some none`).
A `none` at any key means the loop raises when it reaches that key, so
the whole pass crashes and no learned-rate table is written at all. -/
noncomputable def computeLearnedRates (minDays : ℤ) (snaps : SnapStore) :
    String → Option (Option ℝ) :=
  fun key => learnedRateFor minDays (snaps key)

/-! ## searcher.py — sold detection (`check_sold`) -/

/-- `INTERVAL = 300` seconds between crawl cycles. -/
def INTERVAL : ℤ := 300

/-- `SOLD_THRESHOLD = 600` seconds — 2 crawl cycles before confirming sold. -/
def SOLD_THRESHOLD : ℤ := 600

/-- One crawl cycle's inputs to `check_sold`: wall-clock time, the set of
ever-seen ids and the set of currently visible ids (as predicates). -/
structure SoldInput (α : Type) where
  now : ℤ
  seen : α → Bool
  current : α → Bool

/-- The sold-detection state threaded through crawl cycles: the candidate
map (id → first-miss timestamp) and the confirmed-sold set, which the
caller extends with each cycle's newly confirmed ids. -/
structure SoldState (α : Type) where
  candidates : α → Option ℤ
  sold : α → Bool

/-- New candidate entry for `pid` after `check_sold`: ids outside
`seen_ids - sold_ids` are untouched; present ids are cleared; a candidate
past the threshold is deleted (and emitted); otherwise a first miss opens
a candidacy at `now`. -/
def checkSoldCand {α : Type} (now : ℤ) (seen current sold : α → Bool)
    (cands : α → Option ℤ) (pid : α) : Option ℤ :=
  if seen pid && !sold pid then
    if current pid then none
    else
      match cands pid with
      | some t => if SOLD_THRESHOLD ≤ now - t then none else some t
      | none => some now
  else cands pid

/-- Whether `check_sold` emits `pid` in `newly_sold` this cycle. -/
def checkSoldEmits {α : Type} (now : ℤ) (seen current sold : α → Bool)
    (cands : α → Option ℤ) (pid : α) : Bool :=
  seen pid && !sold pid && !current pid &&
    (match cands pid with
     | some t => decide (SOLD_THRESHOLD ≤ now - t)
     | none => false)

/-- One crawl cycle as run by the main loop: `check_sold` followed by the
caller's `sold_ids.update(newly_sold)`. -/
def soldCycle {α : Type} (inp : SoldInput α) (s : SoldState α) : SoldState α :=
  { candidates := fun pid =>
      checkSoldCand inp.now inp.seen inp.current s.sold s.candidates pid
    sold := fun pid =>
      s.sold pid ||
        checkSoldEmits inp.now inp.seen inp.current s.sold s.candidates pid }

/-- Folding a sequence of crawl cycles. -/
def soldRun {α : Type} (inps : List (SoldInput α)) (s : SoldState α) :
    SoldState α :=
  inps.foldl (fun s i => soldCycle i s) s

/-- Number of times `pid` is emitted as newly confirmed sold over a
sequence of crawl cycles. -/
def soldRunEmits {α : Type} (inps : List (SoldInput α)) (s : SoldState α)
    (pid : α) : ℕ :=
  match inps with
  | [] => 0
  | i :: rest =>
      (if checkSoldEmits i.now i.seen i.current s.sold s.candidates pid
       then 1 else 0) + soldRunEmits rest (soldCycle i s) pid

/-- The sold-detection invariant: no id is simultaneously a candidate and
confirmed sold. -/
def SoldInv {α : Type} (s : SoldState α) : Prop :=
  ∀ pid, s.sold pid = true → s.candidates pid = none

/-- The initial state of the detector: no candidates, nothing sold. -/
def initSoldState : SoldState ℕ :=
  { candidates := fun _ => none, sold := fun _ => false }

/-- A crawl cycle at time `t` in which every listing is visible. -/
def presentCycle (t : ℤ) : SoldInput ℕ :=
  { now := t, seen := fun _ => true, current := fun _ => true }

/-- A crawl cycle at time `t` in which `pid` (and only `pid`) is missing. -/
def absentCycle (pid : ℕ) (t : ℤ) : SoldInput ℕ :=
  { now := t, seen := fun _ => true, current := fun q => decide (q ≠ pid) }

/-- `n` consecutive crawl cycles, `INTERVAL` apart starting at `t0`, from
all of which `pid` is missing. -/
def absentRun (pid : ℕ) (t0 : ℤ) : ℕ → List (SoldInput ℕ)
  | 0 => []
  | n + 1 => absentCycle pid t0 :: absentRun pid (t0 + INTERVAL) n

/-! ## Concrete default data (hardcoded fallbacks of valuation.py) -/

/-- `_DEFAULT_PREMIUM`: hardcoded premium-tier fallback. -/
def defaultPremium : List String := ["fender", "gibson", "martin"]

/-- `_DEFAULT_MAJOR`: hardcoded major-tier fallback. -/
def defaultMajor : List String :=
  ["rickenbacker", "gretsch", "guild", "epiphone", "taylor",
   "angelico", "maccaferri", "national", "dobro", "vox",
   "mosrite", "harmony", "kay", "danelectro", "supro"]

/-- The cold-start environment: default brand tiers, no learned rates, no
knowledge-base files, ML module not imported and no models loaded. -/
def defaultEnv : Env :=
  { premiumBrands := defaultPremium
    majorBrands := defaultMajor
    learnedRates := fun _ => none
    iconicModels := []
    guitarists := []
    mlModuleLoaded := false
    mlModels := []
    mlScore := fun _ _ _ _ => none }

/-! ## Claim C1 — corrupt price history is silently wiped -/

/-- **C1** (code behaviour at the failing input).  `snapshot_prices` treats
a price_history.json that exists but cannot be parsed exactly like a file
that never existed: the `except: pass` prologue silently replaces the
unparsable store with the empty default, and the function then
unconditionally writes that reinitialised history back.  In particular on
an unparsable store it writes a history with no learned rates and no
snapshots beyond today's run — all previously held data is wiped, and no
failure is surfaced.  This contradicts the claim (and spec §7), which
requires "failed to parse" to surface rather than silently wipe. -/
theorem claim_C1_wipes_corrupt_history :
    (∀ (today : ℤ) (listings : List Listing),
        snapshotPrices FileState.unparsable today listings =
        snapshotPrices FileState.missing today listings) ∧
    (∀ (today : ℤ) (key : String),
        (snapshotPrices FileState.unparsable today []).1.learnedRates key = none ∧
        (snapshotPrices FileState.unparsable today []).1.snapshots key = []) :=
  ⟨fun _ _ => rfl, fun _ _ => ⟨rfl, rfl⟩⟩

/-! ## Claim C2 — fallback rate on an unparsable year -/

/-- **C2 counterexample.**  "Zenith" is in no tier list (hence minor tier),
there are no learned rates, and "unknown" has no 4-digit year; the claim
says `appreciation_rate` must return the fixed 2 % fallback, but the code
substitutes 1970 (`_parse_year(year) or 1970`) and returns the 1965–1980
minor-tier rate 0.03. -/
theorem claim_C2_counterexample :
    parseYear "unknown" = none ∧
    appreciationRate defaultEnv "Zenith" "unknown" (some "Special") = 3/100 ∧
    appreciationRate defaultEnv "Zenith" "unknown" (some "Special") ≠ 2/100 := by
  have h3 : appreciationRate defaultEnv "Zenith" "unknown" (some "Special")
      = 3/100 := rfl
  exact ⟨rfl, h3, by rw [h3]; norm_num⟩

/-- **C2 (amended).**  With no learned rate for the key and a year string
containing no parseable 4-digit year, `appreciation_rate` falls back to the
year 1970 and returns the static 1965–1979 era rate for the brand's tier
(premium 0.06, major 0.05, minor 0.03) — not the fixed 2 % fallback, which
is unreachable here. -/
theorem claim_C2_unparsable_year_rate (env : Env) (brand year : String)
    (model : Option String) (hyear : parseYear year = none)
    (hlearn : ∀ m, model = some m → strIsEmpty m = false →
        env.learnedRates (rateKey brand m) = none) :
    appreciationRate env brand year model =
      (match brandTier env brand with
       | .premium => 6/100
       | .major => 5/100
       | .minor => 3/100) := by
  have htab : (eraLookup (brandTier env brand) 1970 eraRates) =
      (match brandTier env brand with
       | Tier.premium => (6/100 : ℚ)
       | Tier.major => 5/100
       | Tier.minor => 3/100) := by
    cases brandTier env brand <;> norm_num [eraRates, eraLookup]
  rw [← htab]
  unfold appreciationRate
  rw [hyear]
  match hm : model with
  | none => rfl
  | some m =>
      cases he : strIsEmpty m with
      | true => simp [he]
      | false => simp [he, hlearn m rfl he]

/-- **C2 witness**: Gibson (premium tier) with year "unknown" and no model
key gets the 1970 premium-tier rate 0.06. -/
theorem claim_C2_witness :
    parseYear "unknown" = none ∧
    appreciationRate defaultEnv "Gibson" "unknown" none = 6/100 := by
  refine ⟨rfl, ?_⟩
  have h := claim_C2_unparsable_year_rate defaultEnv "Gibson" "unknown" none
    rfl (fun m hm => by cases hm)
  have htier : brandTier defaultEnv "Gibson" = Tier.premium := by decide
  rw [htier] at h
  exact h

/-! ## `_score_value` analysis (claims C4 and C10) -/

lemma scoreValue_some (p lo hi : ℚ) :
    scoreValue (some p) (some lo) (some hi) =
      if p ≤ lo then 100
      else if p ≤ (lo + hi) / 2 then 100 - 25 * (p - lo) / ((lo + hi) / 2 - lo)
      else if p ≤ hi then 75 - 25 * (p - (lo + hi) / 2) / (hi - (lo + hi) / 2)
      else max 0 (50 - 50 * ((p - hi) / hi)) := rfl

lemma scoreValue_of_le_lo {p lo : ℚ} (hi : ℚ) (h : p ≤ lo) :
    scoreValue (some p) (some lo) (some hi) = 100 := by
  rw [scoreValue_some, if_pos h]

lemma scoreValue_branch2 {p lo hi : ℚ} (h1 : lo < p) (h2 : p ≤ (lo + hi) / 2) :
    scoreValue (some p) (some lo) (some hi) =
      100 - 25 * (p - lo) / ((lo + hi) / 2 - lo) := by
  rw [scoreValue_some, if_neg (not_le.mpr h1), if_pos h2]

lemma scoreValue_branch3 {p lo hi : ℚ} (h1 : ¬ p ≤ lo) (h2 : ¬ p ≤ (lo + hi) / 2)
    (h3 : p ≤ hi) :
    scoreValue (some p) (some lo) (some hi) =
      75 - 25 * (p - (lo + hi) / 2) / (hi - (lo + hi) / 2) := by
  rw [scoreValue_some, if_neg h1, if_neg h2, if_pos h3]

lemma scoreValue_branch4 {p lo hi : ℚ} (h1 : ¬ p ≤ lo) (h2 : ¬ p ≤ (lo + hi) / 2)
    (h3 : ¬ p ≤ hi) :
    scoreValue (some p) (some lo) (some hi) =
      max 0 (50 - 50 * ((p - hi) / hi)) := by
  rw [scoreValue_some, if_neg h1, if_neg h2, if_neg h3]

/-- Per-branch value ranges of `_score_value`. -/
lemma scoreValue_piece_bounds {p lo hi : ℚ} (hlh : lo ≤ hi) (hhi : 0 < hi) :
    (lo < p → p ≤ (lo + hi) / 2 →
      75 ≤ scoreValue (some p) (some lo) (some hi) ∧
      scoreValue (some p) (some lo) (some hi) ≤ 100) ∧
    ((lo + hi) / 2 < p → p ≤ hi →
      50 ≤ scoreValue (some p) (some lo) (some hi) ∧
      scoreValue (some p) (some lo) (some hi) < 75) ∧
    (hi < p →
      0 ≤ scoreValue (some p) (some lo) (some hi) ∧
      scoreValue (some p) (some lo) (some hi) < 50) := by
  refine ⟨fun h1 h2 => ?_, fun h1 h2 => ?_, fun h1 => ?_⟩
  · rw [scoreValue_branch2 h1 h2]
    have hD : (0 : ℚ) < (lo + hi) / 2 - lo := by linarith
    have ht0 : 0 ≤ (p - lo) / ((lo + hi) / 2 - lo) :=
      div_nonneg (by linarith) (le_of_lt hD)
    have ht1 : (p - lo) / ((lo + hi) / 2 - lo) ≤ 1 :=
      (div_le_one hD).mpr (by linarith)
    rw [mul_div_assoc]
    constructor <;> linarith
  · have hmid : ¬ p ≤ (lo + hi) / 2 := not_le.mpr h1
    have hlo : ¬ p ≤ lo := by
      push_neg
      calc lo ≤ (lo + hi) / 2 := by linarith
      _ < p := h1
    rw [scoreValue_branch3 hlo hmid h2]
    have hD : (0 : ℚ) < hi - (lo + hi) / 2 := by linarith
    have ht0 : 0 < (p - (lo + hi) / 2) / (hi - (lo + hi) / 2) :=
      div_pos (by linarith) hD
    have ht1 : (p - (lo + hi) / 2) / (hi - (lo + hi) / 2) ≤ 1 :=
      (div_le_one hD).mpr (by linarith)
    rw [mul_div_assoc]
    constructor <;> linarith
  · have h3 : ¬ p ≤ hi := not_le.mpr h1
    have h2 : ¬ p ≤ (lo + hi) / 2 := by push_neg; linarith
    have hlo : ¬ p ≤ lo := by push_neg; linarith
    rw [scoreValue_branch4 hlo h2 h3]
    have hov : 0 < (p - hi) / hi := div_pos (by linarith) hhi
    refine ⟨le_max_left 0 _, max_lt (by norm_num) ?_⟩
    have : 0 < 50 * ((p - hi) / hi) := by positivity
    linarith

/-- `_score_value` is antitone in the price (both Reverb bounds fixed). -/
lemma scoreValue_antitone {lo hi : ℚ} (hlh : lo ≤ hi) (hhi : 0 < hi)
    {p q : ℚ} (hpq : p ≤ q) :
    scoreValue (some q) (some lo) (some hi) ≤
    scoreValue (some p) (some lo) (some hi) := by
  by_cases hq1 : q ≤ lo
  · rw [scoreValue_of_le_lo hi hq1, scoreValue_of_le_lo hi (le_trans hpq hq1)]
  · push_neg at hq1
    by_cases hq2 : q ≤ (lo + hi) / 2
    · -- q on the low→mid segment
      have hqb := (scoreValue_piece_bounds hlh hhi (p := q)).1 hq1 hq2
      by_cases hp1 : p ≤ lo
      · rw [scoreValue_of_le_lo hi hp1]; exact hqb.2
      · push_neg at hp1
        have hp2 : p ≤ (lo + hi) / 2 := le_trans hpq hq2
        rw [scoreValue_branch2 hp1 hp2, scoreValue_branch2 hq1 hq2]
        have hD : (0 : ℚ) < (lo + hi) / 2 - lo := by linarith
        exact sub_le_sub_left ((div_le_div_iff_of_pos_right hD).mpr (by linarith)) 100
    · push_neg at hq2
      by_cases hq3 : q ≤ hi
      · -- q on the mid→high segment
        have hqb := (scoreValue_piece_bounds hlh hhi (p := q)).2.1 hq2 hq3
        by_cases hp1 : p ≤ lo
        · rw [scoreValue_of_le_lo hi hp1]; linarith [hqb.2]
        · push_neg at hp1
          by_cases hp2 : p ≤ (lo + hi) / 2
          · have hpb := (scoreValue_piece_bounds hlh hhi (p := p)).1 hp1 hp2
            linarith [hqb.2, hpb.1]
          · push_neg at hp2
            have hp3 : p ≤ hi := le_trans hpq hq3
            rw [scoreValue_branch3 (not_le.mpr hp1) (not_le.mpr hp2) hp3,
              scoreValue_branch3 (not_le.mpr (lt_of_le_of_lt (by linarith) hq2))
                (not_le.mpr hq2) hq3]
            have hD : (0 : ℚ) < hi - (lo + hi) / 2 := by linarith
            exact sub_le_sub_left ((div_le_div_iff_of_pos_right hD).mpr (by linarith)) 75
      · -- q above the market high
        push_neg at hq3
        have hqb := (scoreValue_piece_bounds hlh hhi (p := q)).2.2 hq3
        by_cases hp1 : p ≤ lo
        · rw [scoreValue_of_le_lo hi hp1]; linarith [hqb.2]
        · push_neg at hp1
          by_cases hp2 : p ≤ (lo + hi) / 2
          · have hpb := (scoreValue_piece_bounds hlh hhi (p := p)).1 hp1 hp2
            linarith [hqb.2, hpb.1]
          · push_neg at hp2
            by_cases hp3 : p ≤ hi
            · have hpb := (scoreValue_piece_bounds hlh hhi (p := p)).2.1 hp2 hp3
              linarith [hqb.2, hpb.1]
            · push_neg at hp3
              rw [scoreValue_branch4 (not_le.mpr hp1) (not_le.mpr hp2)
                  (not_le.mpr hp3),
                scoreValue_branch4 (not_le.mpr (by linarith : lo < q))
                  (not_le.mpr hq2) (not_le.mpr hq3)]
              refine max_le_max le_rfl (sub_le_sub_left ?_ 50)
              exact mul_le_mul_of_nonneg_left
                ((div_le_div_iff_of_pos_right hhi).mpr (by linarith)) (by norm_num)

/-- **C4.**  For a non-`None` price and a market range with
`market_low ≤ market_high`, `0 < market_high` and a non-degenerate low
half-segment (`market_low < midpoint`): `_score_value` returns 100 at or
below the low bound, exactly 75 at the midpoint, exactly 50 at the high
bound, is identically 0 from `2·market_high` on (which is the precise
sense in which it tends to 0 as the price grows without bound), and is
monotonically non-increasing in the price throughout. -/
theorem claim_C4_value_score_shape (lo hi : ℚ) (h1 : lo ≤ hi) (h2 : 0 < hi)
    (h3 : lo < (lo + hi) / 2) :
    (∀ p, p ≤ lo → scoreValue (some p) (some lo) (some hi) = 100) ∧
    scoreValue (some ((lo + hi) / 2)) (some lo) (some hi) = 75 ∧
    scoreValue (some hi) (some lo) (some hi) = 50 ∧
    (∀ p, 2 * hi ≤ p → scoreValue (some p) (some lo) (some hi) = 0) ∧
    (∀ p q, p ≤ q →
      scoreValue (some q) (some lo) (some hi) ≤
      scoreValue (some p) (some lo) (some hi)) := by
  have hmidhi : (lo + hi) / 2 < hi := by linarith
  refine ⟨fun p hp => scoreValue_of_le_lo hi hp, ?_, ?_, fun p hp => ?_,
    fun p q h => scoreValue_antitone h1 h2 h⟩
  · rw [scoreValue_branch2 h3 le_rfl]
    have hD : ((lo + hi) / 2 - lo) ≠ 0 := by
      have : (0 : ℚ) < (lo + hi) / 2 - lo := by linarith
      exact ne_of_gt this
    rw [mul_div_assoc, div_self hD]
    norm_num
  · rw [scoreValue_branch3 (not_le.mpr (by linarith)) (not_le.mpr hmidhi) le_rfl]
    have hD : (hi - (lo + hi) / 2) ≠ 0 := by
      have : (0 : ℚ) < hi - (lo + hi) / 2 := by linarith
      exact ne_of_gt this
    rw [mul_div_assoc, div_self hD]
    norm_num
  · have hhp : hi < p := by linarith
    rw [scoreValue_branch4 (not_le.mpr (by linarith)) (not_le.mpr (by linarith))
      (not_le.mpr hhp)]
    have hov : (1 : ℚ) ≤ (p - hi) / hi := (one_le_div h2).mpr (by linarith)
    have h50 : (50 : ℚ) ≤ 50 * ((p - hi) / hi) := by linarith
    exact max_eq_left (by linarith)

/-- **C4 witness**: the spec's concrete scenario with market range
[8500, 14000] — price 8000 scores 100, the exact midpoint 11250 scores 75,
and price 14000 scores 50. -/
theorem claim_C4_witness :
    scoreValue (some 8000) (some 8500) (some 14000) = 100 ∧
    scoreValue (some 11250) (some 8500) (some 14000) = 75 ∧
    scoreValue (some 14000) (some 8500) (some 14000) = 50 := by
  have h := claim_C4_value_score_shape 8500 14000 (by norm_num) (by norm_num)
    (by norm_num)
  refine ⟨h.1 8000 (by norm_num), ?_, h.2.2.1⟩
  have h75 := h.2.1
  rw [show ((8500 : ℚ) + 14000) / 2 = 11250 from by norm_num] at h75
  exact h75

/-- **C10.**  For a non-`None` price and market range with
`0 < reverb_hi` and `reverb_lo ≤ reverb_hi`, `_score_value` is total: its
result always lies in [0, 100], and every reachable division has a
non-zero denominator (the low→mid branch is only reachable when
`mid − lo ≠ 0`, the mid→high branch when `hi − mid ≠ 0`, and the
overshoot branch divides by `hi ≠ 0`). -/
theorem claim_C10_value_score_safe (p lo hi : ℚ) (h1 : lo ≤ hi) (h2 : 0 < hi) :
    (0 ≤ scoreValue (some p) (some lo) (some hi) ∧
     scoreValue (some p) (some lo) (some hi) ≤ 100) ∧
    (lo < p → p ≤ (lo + hi) / 2 → (lo + hi) / 2 - lo ≠ 0) ∧
    ((lo + hi) / 2 < p → p ≤ hi → hi - (lo + hi) / 2 ≠ 0) ∧
    hi ≠ 0 := by
  have hb := scoreValue_piece_bounds (p := p) h1 h2
  refine ⟨?_, fun ha hmid => ?_, fun ha hmid => ?_, ne_of_gt h2⟩
  · by_cases hp1 : p ≤ lo
    · rw [scoreValue_of_le_lo hi hp1]; norm_num
    · push_neg at hp1
      by_cases hp2 : p ≤ (lo + hi) / 2
      · have hr := hb.1 hp1 hp2
        exact ⟨by linarith [hr.1], hr.2⟩
      · push_neg at hp2
        by_cases hp3 : p ≤ hi
        · have hr := hb.2.1 hp2 hp3
          exact ⟨by linarith [hr.1], by linarith [hr.2]⟩
        · push_neg at hp3
          have hr := hb.2.2 hp3
          exact ⟨hr.1, by linarith [hr.2]⟩
  · have : lo < (lo + hi) / 2 := lt_of_lt_of_le ha hmid
    have : (0 : ℚ) < (lo + hi) / 2 - lo := by linarith
    exact ne_of_gt this
  · have : (lo + hi) / 2 < hi := lt_of_lt_of_le ha hmid
    have : (0 : ℚ) < hi - (lo + hi) / 2 := by linarith
    exact ne_of_gt this

/-- **C10 witness**: bounds at the concrete listing price 9999 against the
market range [8500, 14000]. -/
theorem claim_C10_witness :
    0 ≤ scoreValue (some 9999) (some 8500) (some 14000) ∧
    scoreValue (some 9999) (some 8500) (some 14000) ≤ 100 :=
  (claim_C10_value_score_safe 9999 8500 14000 (by norm_num) (by norm_num)).1

/-! ## Claims C3 and C8 — composite-total structure of `score_listing` -/

/-- Spec-side definition for claim C3 (refinement target, following the
spec's words, not the code): the composite rule total as "the weighted sum
over exactly those sub-score dimensions whose weight keys are present in
the configuration" — an absent key contributes nothing. -/
def specWeightedTotal (w : String → Option ℚ)
    (sVal sApp sFit sCond sIcon : ℚ) : ℚ :=
  (w "value").elim 0 (· * sVal) + (w "appreciate").elim 0 (· * sApp) +
  (w "fit").elim 0 (· * sFit) + (w "condition").elim 0 (· * sCond) +
  (w "iconic").elim 0 (· * sIcon)

/-- Weight configuration with the `"value"` key absent and the other four
dimensions configured.  On this configuration the claim predicts the value
dimension is simply excluded; the code instead hits `w["value"]` and
raises `KeyError`. -/
def cexWeights : String → Option ℚ := fun k =>
  if k = "appreciate" then some (1/4)
  else if k = "fit" then some (1/4)
  else if k = "condition" then some (1/4)
  else if k = "iconic" then some (1/4)
  else none

/-- Budget carrying `cexWeights`, ML disabled. -/
def cexBudget : Budget :=
  { weights := cexWeights, mlEnabled := false, mlBlend := none }

/-- A fully populated concrete listing. -/
def cexListing : Listing :=
  { brand := "Gibson", model := "Les Paul", type := "electric",
    year := "1959", condition := "excellent",
    price := some 9000, reverbLo := some 8500, reverbHi := some 14000 }

/-- **C3 counterexample.**  With the `"value"` weight key missing (and all
four other dimension weights present), `score_listing` does not exclude
the value dimension — it fails on the unconditional `w["value"]` access
(`KeyError`, modelled as `none`), so no score is produced at all. -/
theorem claim_C3_counterexample :
    scoreListing defaultEnv cexListing [] cexBudget = none := rfl

/-- With the three base weight keys present, `score_listing` produces a
score whose reported rule total is the weighted sum over exactly the
present dimensions. -/
lemma scoreListing_ruleTotal (env : Env) (entry : Listing)
    (collection : List CollEntry) (budget : Budget) (wv wa wf : ℚ)
    (hv : budget.weights "value" = some wv)
    (ha : budget.weights "appreciate" = some wa)
    (hf : budget.weights "fit" = some wf) :
    ∃ total bd, scoreListing env entry collection budget = some (total, bd) ∧
      bd.ruleTotal = round1 (specWeightedTotal budget.weights
        (scoreValue entry.price entry.reverbLo entry.reverbHi)
        (scoreAppreciation env entry.brand entry.year (some entry.model))
        (scoreFit env entry collection)
        (scoreCondition entry.condition)
        (scoreIconic env entry.brand entry.model)) := by
  have htot :
        (match budget.weights "iconic" with
          | some wi =>
              (match budget.weights "condition" with
                | some wc =>
                    wv * scoreValue entry.price entry.reverbLo entry.reverbHi +
                      wa * scoreAppreciation env entry.brand entry.year
                        (some entry.model) +
                      wf * scoreFit env entry collection +
                      wc * scoreCondition entry.condition
                | none =>
                    wv * scoreValue entry.price entry.reverbLo entry.reverbHi +
                      wa * scoreAppreciation env entry.brand entry.year
                        (some entry.model) +
                      wf * scoreFit env entry collection) +
                wi * scoreIconic env entry.brand entry.model
          | none =>
              match budget.weights "condition" with
              | some wc =>
                  wv * scoreValue entry.price entry.reverbLo entry.reverbHi +
                    wa * scoreAppreciation env entry.brand entry.year
                      (some entry.model) +
                    wf * scoreFit env entry collection +
                    wc * scoreCondition entry.condition
              | none =>
                  wv * scoreValue entry.price entry.reverbLo entry.reverbHi +
                    wa * scoreAppreciation env entry.brand entry.year
                      (some entry.model) +
                    wf * scoreFit env entry collection) =
        specWeightedTotal budget.weights
            (scoreValue entry.price entry.reverbLo entry.reverbHi)
            (scoreAppreciation env entry.brand entry.year (some entry.model))
            (scoreFit env entry collection)
            (scoreCondition entry.condition)
            (scoreIconic env entry.brand entry.model) := by
      cases hc : budget.weights "condition" <;> cases hic : budget.weights "iconic" <;>
        simp only [specWeightedTotal, hv, ha, hf, hc, hic, Option.elim] <;> ring
  simp only [scoreListing, hv, ha, hf]
  split
  · split
    · refine ⟨_, _, rfl, ?_⟩
      rw [← htot]
    · refine ⟨_, _, rfl, ?_⟩
      rw [← htot]
  · refine ⟨_, _, rfl, ?_⟩
    rw [← htot]

/-- When any of the three base weight keys is missing, `score_listing`
raises `KeyError` (modelled as `none`). -/
lemma scoreListing_missing_none (env : Env) (entry : Listing)
    (collection : List CollEntry) (budget : Budget)
    (h : budget.weights "value" = none ∨ budget.weights "appreciate" = none ∨
        budget.weights "fit" = none) :
    scoreListing env entry collection budget = none := by
  cases hv : budget.weights "value" with
  | none =>
      cases ha : budget.weights "appreciate" <;>
        cases hf : budget.weights "fit" <;>
          simp only [scoreListing, hv, ha, hf]
  | some wv =>
      cases ha : budget.weights "appreciate" with
      | none =>
          cases hf : budget.weights "fit" <;>
            simp only [scoreListing, hv, ha, hf]
      | some wa =>
          cases hf : budget.weights "fit" with
          | none => simp only [scoreListing, hv, ha, hf]
          | some wf =>
              exfalso
              rcases h with h | h | h
              · rw [hv] at h; exact Option.noConfusion h
              · rw [ha] at h; exact Option.noConfusion h
              · rw [hf] at h; exact Option.noConfusion h

/-- **C3 (amended).**  The `"condition"` and `"iconic"` weight keys are
optional: when present they add their dimension, when absent the dimension
is excluded, so the rule total is the weighted sum over exactly the
present dimensions (`specWeightedTotal`).  The three base keys
`"value"`, `"appreciate"` and `"fit"`, however, are required: when any of
them is missing `score_listing` raises `KeyError` (modelled as `none`)
instead of excluding the dimension. -/
theorem claim_C3_optional_dimensions (env : Env) (entry : Listing)
    (collection : List CollEntry) (budget : Budget) :
    (∀ wv wa wf, budget.weights "value" = some wv →
        budget.weights "appreciate" = some wa →
        budget.weights "fit" = some wf →
        ∃ total bd, scoreListing env entry collection budget = some (total, bd) ∧
          bd.ruleTotal = round1 (specWeightedTotal budget.weights
            (scoreValue entry.price entry.reverbLo entry.reverbHi)
            (scoreAppreciation env entry.brand entry.year (some entry.model))
            (scoreFit env entry collection)
            (scoreCondition entry.condition)
            (scoreIconic env entry.brand entry.model))) ∧
    (budget.weights "value" = none ∨ budget.weights "appreciate" = none ∨
        budget.weights "fit" = none →
      scoreListing env entry collection budget = none) :=
  ⟨fun wv wa wf hv ha hf =>
      scoreListing_ruleTotal env entry collection budget wv wa wf hv ha hf,
   fun h => scoreListing_missing_none env entry collection budget h⟩

/-- `_DEFAULT_BUDGET` of scorer.py: weights value 0.30, appreciate 0.25,
fit 0.25, condition 0.20 (no iconic key); `ml_enabled` and `ml_blend`
absent. -/
def defaultBudget : Budget :=
  { weights := fun k =>
      if k = "value" then some (30/100)
      else if k = "appreciate" then some (25/100)
      else if k = "fit" then some (25/100)
      else if k = "condition" then some (20/100)
      else none
    mlEnabled := false
    mlBlend := none }

/-- The rule total `score_listing` computes for `cexListing` under the
default budget (value/appreciate/fit/condition configured, no iconic). -/
def cexRuleTotal : ℚ :=
  round1 (30/100 * scoreValue cexListing.price cexListing.reverbLo
      cexListing.reverbHi +
    25/100 * scoreAppreciation defaultEnv cexListing.brand cexListing.year
      (some cexListing.model) +
    25/100 * scoreFit defaultEnv cexListing [] +
    20/100 * scoreCondition cexListing.condition)

/-- The breakdown `score_listing` builds for `cexListing` under the
default budget. -/
def cexBreakdown : Breakdown :=
  { value := round1 (scoreValue cexListing.price cexListing.reverbLo
      cexListing.reverbHi)
    appreciation := round1 (scoreAppreciation defaultEnv cexListing.brand
      cexListing.year (some cexListing.model))
    fit := round1 (scoreFit defaultEnv cexListing [])
    condition := round1 (scoreCondition cexListing.condition)
    iconic := round1 (scoreIconic defaultEnv cexListing.brand
      cexListing.model)
    mlTotal := none
    mlBuyProb := none
    mlPrice := none
    ruleTotal := cexRuleTotal }

/-- **C3 witness**: on the default 4-dimension budget the amended theorem
yields a score whose rule total is the weighted sum over the four present
dimensions, and on the `"value"`-less configuration it yields `none`. -/
theorem claim_C3_witness :
    scoreListing defaultEnv cexListing [] defaultBudget =
      some (cexRuleTotal, cexBreakdown) ∧
    cexBreakdown.ruleTotal = round1 (specWeightedTotal defaultBudget.weights
      (scoreValue cexListing.price cexListing.reverbLo cexListing.reverbHi)
      (scoreAppreciation defaultEnv cexListing.brand cexListing.year
        (some cexListing.model))
      (scoreFit defaultEnv cexListing [])
      (scoreCondition cexListing.condition)
      (scoreIconic defaultEnv cexListing.brand cexListing.model)) ∧
    scoreListing defaultEnv cexListing [] cexBudget = none := by
  have hsl : scoreListing defaultEnv cexListing [] defaultBudget =
      some (cexRuleTotal, cexBreakdown) := rfl
  obtain ⟨t, b, h1, h2⟩ :=
    (claim_C3_optional_dimensions defaultEnv cexListing [] defaultBudget).1
      (30/100) (25/100) (25/100) rfl rfl rfl
  rw [hsl] at h1
  injection h1 with hp
  injection hp with ht hb
  refine ⟨hsl, ?_,
    (claim_C3_optional_dimensions defaultEnv cexListing [] cexBudget).2
      (Or.inl rfl)⟩
  rw [hb]
  exact h2

/-- **C8.**  The returned total equals the reported pure rule-based total
whenever any link of the ML chain is down: `ml_enabled` false, the
`ml_predict` module not importable, no trained model loadable
(`is_ml_available` false), the inference call returning no result, or a
result carrying no `ml_total`.  In all those cases the rule-based total
passes through unchanged for every listing, collection and weight
configuration. -/
theorem claim_C8_rule_total_passthrough (env : Env) (entry : Listing)
    (collection : List CollEntry) (budget : Budget)
    (h : budget.mlEnabled = false ∨ env.mlModuleLoaded = false ∨
         env.mlModels = [] ∨
         (∀ bd, env.mlScore entry collection budget bd = none) ∨
         (∀ bd r, env.mlScore entry collection budget bd = some r →
            r.mlTotal = none)) :
    ∀ total bd, scoreListing env entry collection budget = some (total, bd) →
      total = bd.ruleTotal := by
  intro total bd hsl
  cases hv : budget.weights "value" with
  | none =>
      rw [scoreListing_missing_none env entry collection budget (Or.inl hv)] at hsl
      exact Option.noConfusion hsl
  | some wv =>
  cases ha : budget.weights "appreciate" with
  | none =>
      rw [scoreListing_missing_none env entry collection budget
        (Or.inr (Or.inl ha))] at hsl
      exact Option.noConfusion hsl
  | some wa =>
  cases hf : budget.weights "fit" with
  | none =>
      rw [scoreListing_missing_none env entry collection budget
        (Or.inr (Or.inr hf))] at hsl
      exact Option.noConfusion hsl
  | some wf =>
  simp only [scoreListing, hv, ha, hf] at hsl
  rcases h with h | h | h | h | h
  · have hcond : (budget.mlEnabled && env.mlModuleLoaded && isMlAvailable env)
        = false := by rw [h]; simp
    rw [hcond, if_neg Bool.false_ne_true] at hsl
    injection hsl with hpair
    injection hpair with h1 h2
    rw [← h1, ← h2]
  · have hcond : (budget.mlEnabled && env.mlModuleLoaded && isMlAvailable env)
        = false := by rw [h]; simp
    rw [hcond, if_neg Bool.false_ne_true] at hsl
    injection hsl with hpair
    injection hpair with h1 h2
    rw [← h1, ← h2]
  · have hcond : (budget.mlEnabled && env.mlModuleLoaded && isMlAvailable env)
        = false := by
      rw [show isMlAvailable env = false by simp [isMlAvailable, h]]
      simp
    rw [hcond, if_neg Bool.false_ne_true] at hsl
    injection hsl with hpair
    injection hpair with h1 h2
    rw [← h1, ← h2]
  · split at hsl
    · rw [h] at hsl
      injection hsl with hpair
      injection hpair with h1 h2
      rw [← h1, ← h2]
    · injection hsl with hpair
      injection hpair with h1 h2
      rw [← h1, ← h2]
  · split at hsl
    · split at hsl
      · rename_i r heq
        rw [h _ r heq] at hsl
        injection hsl with hpair
        injection hpair with h1 h2
        rw [← h1, ← h2]
      · injection hsl with hpair
        injection hpair with h1 h2
        rw [← h1, ← h2]
    · injection hsl with hpair
      injection hpair with h1 h2
      rw [← h1, ← h2]

/-- **C8 witness**: with the cold-start environment (no ML module, no
models) and the default budget, the concrete listing's returned total is
exactly its reported rule total. -/
theorem claim_C8_witness :
    scoreListing defaultEnv cexListing [] defaultBudget =
      some (cexRuleTotal, cexBreakdown) ∧
    cexRuleTotal = cexBreakdown.ruleTotal :=
  ⟨rfl, claim_C8_rule_total_passthrough defaultEnv cexListing [] defaultBudget
      (Or.inr (Or.inl rfl)) cexRuleTotal cexBreakdown rfl⟩

/-! ## Claim C7 — same-day idempotence of `snapshot_prices` -/

/-- A list's `getLast?` element is a member. -/
lemma lastMem {α : Type} : ∀ (l : List α) (a : α), l.getLast? = some a → a ∈ l
  | [], a, h => by simp at h
  | [x], a, h => by
      simp at h
      simp [h]
  | x :: y :: t, a, h => by
      rw [List.getLast?_cons_cons] at h
      exact List.mem_cons_of_mem x (lastMem (y :: t) a h)

/-- In a date-sorted snapshot list every entry's date is at most the last
entry's date. -/
lemma pairwise_le_last (xs : List SnapEntry) (d e : SnapEntry)
    (hp : xs.Pairwise (fun a b => a.date < b.date))
    (hl : xs.getLast? = some d) (he : e ∈ xs) : e.date ≤ d.date := by
  induction xs with
  | nil => cases he
  | cons x t ih =>
      cases t with
      | nil =>
          rcases List.mem_singleton.mp he with rfl
          simp at hl
          rw [hl]
      | cons y t2 =>
          rw [List.getLast?_cons_cons] at hl
          cases List.mem_cons.mp he with
          | inl hex =>
              subst hex
              have hd : d ∈ y :: t2 := lastMem _ _ hl
              exact le_of_lt ((List.pairwise_cons.mp hp).1 d hd)
          | inr he2 =>
              exact ih (List.pairwise_cons.mp hp).2 hl he2

/-- The loop body preserves "key `k`'s list ends with a today-dated
entry", for every key. -/
lemma snapshotStep_preserves_lastToday (today : ℤ) (st : SnapStore × ℕ)
    (l : Listing) (k : String) (e0 : SnapEntry)
    (h : (st.1 k).getLast? = some e0) (he : e0.date = today) :
    ∃ e1, ((snapshotStep today st l).1 k).getLast? = some e1 ∧
      e1.date = today := by
  unfold snapshotStep
  cases hlo : l.reverbLo with
  | none => exact ⟨e0, h, he⟩
  | some lo =>
  cases hhi : l.reverbHi with
  | none => exact ⟨e0, h, he⟩
  | some hi =>
  simp only []
  split
  · exact ⟨e0, h, he⟩
  · split
    · exact ⟨e0, h, he⟩
    · by_cases hk : k = snapKey l
      · subst hk
        refine ⟨⟨today, lo, hi, round2 ((lo + hi) / 2)⟩, ?_, rfl⟩
        simp [Function.update_same, List.getLast?_concat]
      · refine ⟨e0, ?_, he⟩
        simpa [Function.update_noteq hk] using h

/-- After the loop body processes a valid listing, that listing's key ends
with a today-dated entry. -/
lemma snapshotStep_self_lastToday (today : ℤ) (st : SnapStore × ℕ)
    (l : Listing) (hv : snapValid l) :
    ∃ e1, ((snapshotStep today st l).1 (snapKey l)).getLast? = some e1 ∧
      e1.date = today := by
  obtain ⟨h1, h2, h3, h4⟩ := hv
  unfold snapshotStep
  cases hlo : l.reverbLo with
  | none => exact absurd hlo h1
  | some lo =>
  cases hhi : l.reverbHi with
  | none => exact absurd hhi h2
  | some hi =>
  simp only []
  split
  · rename_i hempty
    rw [Bool.or_eq_true] at hempty
    exact absurd hempty (by simp [h3, h4])
  · split
    · rename_i hskip
      revert hskip
      cases hlast : (st.1 (snapKey l)).getLast? with
      | none => intro hskip; simp at hskip
      | some e =>
          intro hskip
          exact ⟨e, rfl, of_decide_eq_true hskip⟩
    · refine ⟨⟨today, lo, hi, round2 ((lo + hi) / 2)⟩, ?_, rfl⟩
      simp [Function.update_same, List.getLast?_concat]

/-- The loop body is the identity once the listing's key already ends with
a today-dated entry (or the listing is skipped as invalid). -/
lemma snapshotStep_id (today : ℤ) (st : SnapStore × ℕ) (l : Listing)
    (h : snapValid l →
      ∃ e, (st.1 (snapKey l)).getLast? = some e ∧ e.date = today) :
    snapshotStep today st l = st := by
  unfold snapshotStep
  cases hlo : l.reverbLo with
  | none => rfl
  | some lo =>
  cases hhi : l.reverbHi with
  | none => rfl
  | some hi =>
  simp only []
  split
  · rfl
  · rename_i hempty
    rw [Bool.or_eq_true, not_or] at hempty
    obtain ⟨hb, hm⟩ := hempty
    obtain ⟨e, hlast, hdate⟩ := h
      ⟨by rw [hlo]; exact fun hc => Option.noConfusion hc,
       by rw [hhi]; exact fun hc => Option.noConfusion hc,
       by simpa using hb, by simpa using hm⟩
    split
    · rfl
    · rename_i hskip
      rw [hlast] at hskip
      exact absurd (decide_eq_true hdate) hskip

/-- Folding the loop from a state whose valid keys all end today is the
identity (on the store and the appended count alike). -/
lemma snapshotFold_id (today : ℤ) : ∀ (L : List Listing) (st : SnapStore × ℕ),
    (∀ l ∈ L, snapValid l →
      ∃ e, (st.1 (snapKey l)).getLast? = some e ∧ e.date = today) →
    List.foldl (snapshotStep today) st L = st
  | [], _, _ => rfl
  | l0 :: L', st, h => by
      have hid : snapshotStep today st l0 = st :=
        snapshotStep_id today st l0 (h l0 (List.mem_cons_self l0 L'))
      show List.foldl (snapshotStep today) (snapshotStep today st l0) L' = st
      rw [hid]
      exact snapshotFold_id today L' st
        (fun l hl => h l (List.mem_cons_of_mem l0 hl))

/-- Folding the loop preserves "key `k`'s list ends with a today-dated
entry". -/
lemma snapshotFold_preserves_lastToday (today : ℤ) :
    ∀ (L : List Listing) (st : SnapStore × ℕ) (k : String) (e0 : SnapEntry),
    (st.1 k).getLast? = some e0 → e0.date = today →
    ∃ e1, ((List.foldl (snapshotStep today) st L).1 k).getLast? = some e1 ∧
      e1.date = today
  | [], _, _, e0, h, he => ⟨e0, h, he⟩
  | m :: M, st, k, e0, h, he => by
      obtain ⟨e1, h1, hd1⟩ :=
        snapshotStep_preserves_lastToday today st m k e0 h he
      exact snapshotFold_preserves_lastToday today M
        (snapshotStep today st m) k e1 h1 hd1

/-- After folding the loop, every valid processed listing's key ends with
a today-dated entry. -/
lemma snapshotFold_lastToday (today : ℤ) :
    ∀ (L : List Listing) (st : SnapStore × ℕ) (l : Listing), l ∈ L →
    snapValid l →
    ∃ e, ((List.foldl (snapshotStep today) st L).1 (snapKey l)).getLast? =
      some e ∧ e.date = today := by
  intro L
  induction L with
  | nil => intro st l hl; cases hl
  | cons l0 L' ih =>
      intro st l hl hv
      cases List.mem_cons.mp hl with
      | inl hel =>
          subst hel
          obtain ⟨e1, h1, hd1⟩ := snapshotStep_self_lastToday today st l hv
          exact snapshotFold_preserves_lastToday today L'
            (snapshotStep today st l) (snapKey l) e1 h1 hd1
      | inr hel => exact ih (snapshotStep today st l0) l hel hv

/-- The loop body preserves per-key chronological order and the bound
`date ≤ today`, for every key. -/
lemma snapshotStep_chrono (today : ℤ) (st : SnapStore × ℕ) (l : Listing)
    (k : String)
    (h1 : (st.1 k).Pairwise (fun a b => a.date < b.date))
    (h2 : ∀ e ∈ st.1 k, e.date ≤ today) :
    ((snapshotStep today st l).1 k).Pairwise (fun a b => a.date < b.date) ∧
    ∀ e ∈ (snapshotStep today st l).1 k, e.date ≤ today := by
  unfold snapshotStep
  cases hlo : l.reverbLo with
  | none => exact ⟨h1, h2⟩
  | some lo =>
  cases hhi : l.reverbHi with
  | none => exact ⟨h1, h2⟩
  | some hi =>
  simp only []
  split
  · exact ⟨h1, h2⟩
  · split
    · exact ⟨h1, h2⟩
    · rename_i hskip
      by_cases hk : k = snapKey l
      · subst hk
        simp only [Function.update_same]
        constructor
        · rw [List.pairwise_append]
          refine ⟨h1, List.pairwise_singleton _ _, ?_⟩
          intro a ha b hb
          rcases List.mem_singleton.mp hb with rfl
          show a.date < today
          revert hskip
          cases hlast : (st.1 (snapKey l)).getLast? with
          | none =>
              rw [List.getLast?_eq_none_iff] at hlast
              rw [hlast] at ha
              cases ha
          | some d =>
              intro hskip
              have hdne : d.date ≠ today := by
                intro hc
                exact hskip (decide_eq_true hc)
              have hle : a.date ≤ d.date := pairwise_le_last _ d a h1 hlast ha
              have hdlt : d.date < today :=
                lt_of_le_of_ne (h2 d (lastMem _ _ hlast)) hdne
              exact lt_of_le_of_lt hle hdlt
        · intro e hee
          rcases List.mem_append.mp hee with hee | hee
          · exact h2 e hee
          · rcases List.mem_singleton.mp hee with rfl
            exact le_rfl
      · simp only [Function.update_noteq hk]
        exact ⟨h1, h2⟩

/-- Folding the loop preserves per-key chronological order and the
`date ≤ today` bound, for every key. -/
lemma snapshotFold_chrono (today : ℤ) :
    ∀ (L : List Listing) (st : SnapStore × ℕ) (k : String),
    (st.1 k).Pairwise (fun a b => a.date < b.date) →
    (∀ e ∈ st.1 k, e.date ≤ today) →
    ((List.foldl (snapshotStep today) st L).1 k).Pairwise
      (fun a b => a.date < b.date) ∧
    ∀ e ∈ (List.foldl (snapshotStep today) st L).1 k, e.date ≤ today
  | [], st, k, h1, h2 => ⟨h1, h2⟩
  | l0 :: L', st, k, h1, h2 => by
      have hstep := snapshotStep_chrono today st l0 k h1 h2
      exact snapshotFold_chrono today L' (snapshotStep today st l0) k
        hstep.1 hstep.2

/-- The snapshot-recording loop run twice with the same date over the same
listings: the second run returns the first run's store unchanged with
count 0. -/
lemma snapshotRun_idempotent (today : ℤ) (listings : List Listing)
    (snaps : SnapStore) :
    snapshotRun today listings ((snapshotRun today listings snaps).1) =
      ((snapshotRun today listings snaps).1, 0) :=
  snapshotFold_id today listings _
    (fun l hl hv => snapshotFold_lastToday today listings (snaps, 0) l hl hv)

/-- Re-running `snapshot_prices` on its own just-written history is the
identity (written history unchanged, count 0). -/
lemma snapshotPrices_parsed_id (today : ℤ) (listings : List Listing)
    (h1 : History)
    (h : snapshotRun today listings h1.snapshots = (h1.snapshots, 0)) :
    snapshotPrices (FileState.parsed h1) today listings = (h1, 0) := by
  show ({ snapshots := (snapshotRun today listings h1.snapshots).1,
          learnedRates := h1.learnedRates },
        (snapshotRun today listings h1.snapshots).2) = ((h1 : History), 0)
  rw [h]

/-- **C7.**  Running `snapshot_prices` twice on the same calendar day over
the same listings is idempotent: the second run (reading back the file the
first run wrote) writes the identical history and appends no entry
(count 0); likewise at the store level.  Moreover, on a store whose
per-key snapshot lists are chronologically sorted with all dates ≤ today —
the invariant maintained by daily runs — a run keeps every key's list
strictly sorted by date, so each key holds at most one entry per calendar
day (all dates pairwise distinct). -/
theorem claim_C7_snapshot_idempotent (today : ℤ) (listings : List Listing)
    (snaps : SnapStore) :
    (∀ fs : FileState History,
      snapshotPrices (FileState.parsed (snapshotPrices fs today listings).1)
          today listings =
        ((snapshotPrices fs today listings).1, 0)) ∧
    snapshotRun today listings ((snapshotRun today listings snaps).1) =
      ((snapshotRun today listings snaps).1, 0) ∧
    (∀ key, (snaps key).Pairwise (fun a b => a.date < b.date) →
      (∀ e ∈ snaps key, e.date ≤ today) →
      ((snapshotRun today listings snaps).1 key).Pairwise
          (fun a b => a.date < b.date) ∧
        ((snapshotRun today listings snaps).1 key).Pairwise
          (fun a b => a.date ≠ b.date)) := by
  refine ⟨?_, snapshotRun_idempotent today listings snaps, ?_⟩
  · intro fs
    exact snapshotPrices_parsed_id today listings _
      (snapshotRun_idempotent today listings (loadHistoryOr fs).snapshots)
  · intro key h1 h2
    have h := snapshotFold_chrono today listings (snaps, 0) key h1 h2
    exact ⟨h.1, h.1.imp (fun hab => ne_of_lt hab)⟩

/-- **C7 witness**: one concrete listing over the empty store — the second
same-day run returns the first run's store with count 0, and the
resulting key list has pairwise distinct dates. -/
theorem claim_C7_witness :
    snapshotRun 5 [cexListing]
        ((snapshotRun 5 [cexListing] (fun _ => [])).1) =
      ((snapshotRun 5 [cexListing] (fun _ => [])).1, 0) ∧
    snapshotPrices (FileState.parsed
        (snapshotPrices FileState.missing 5 [cexListing]).1) 5 [cexListing] =
      ((snapshotPrices FileState.missing 5 [cexListing]).1, 0) ∧
    ((snapshotRun 5 [cexListing] (fun _ => [])).1
        (snapKey cexListing)).Pairwise (fun a b => a.date ≠ b.date) := by
  have h := claim_C7_snapshot_idempotent 5 [cexListing] (fun _ => [])
  exact ⟨h.2.1, h.1 FileState.missing,
    (h.2.2 (snapKey cexListing) (by simp) (by simp)).2⟩

/-! ## Claims C5 and C9 — the sold-detection state machine -/

/-- An id emitted by `check_sold` has its candidate entry deleted in that
same call. -/
lemma checkSoldCand_none_of_emit {α : Type} (now : ℤ)
    (seen current sold : α → Bool) (cands : α → Option ℤ) (pid : α)
    (hem : checkSoldEmits now seen current sold cands pid = true) :
    checkSoldCand now seen current sold cands pid = none := by
  unfold checkSoldEmits at hem
  simp only [Bool.and_eq_true] at hem
  obtain ⟨⟨⟨hseen, hnsold⟩, hncur⟩, hmatch⟩ := hem
  rw [Bool.not_eq_true'] at hnsold hncur
  unfold checkSoldCand
  cases hc : cands pid with
  | none => rw [hc] at hmatch; simp at hmatch
  | some t =>
      rw [hc] at hmatch
      simp only [decide_eq_true_eq] at hmatch
      rw [hseen, hnsold, hncur]
      simp [hmatch]

/-- An id already confirmed sold is outside `seen_ids - sold_ids`, so
`check_sold` leaves its candidate entry untouched. -/
lemma checkSoldCand_sold_untouched {α : Type} (now : ℤ)
    (seen current sold : α → Bool) (cands : α → Option ℤ) (pid : α)
    (hs : sold pid = true) :
    checkSoldCand now seen current sold cands pid = cands pid := by
  unfold checkSoldCand
  rw [hs]
  simp

/-- A cycle step of `check_sold` preserves the no-candidate-and-sold
invariant (the caller adding `newly_sold` to `sold_ids` included). -/
lemma soldCycle_inv {α : Type} (inp : SoldInput α) (s : SoldState α)
    (h : SoldInv s) : SoldInv (soldCycle inp s) := by
  intro pid hsold
  show checkSoldCand inp.now inp.seen inp.current s.sold s.candidates pid = none
  have hsold' : (s.sold pid ||
      checkSoldEmits inp.now inp.seen inp.current s.sold s.candidates pid)
      = true := hsold
  cases hs : s.sold pid with
  | true =>
      rw [checkSoldCand_sold_untouched _ _ _ _ _ _ hs]
      exact h pid hs
  | false =>
      rw [hs, Bool.false_or] at hsold'
      exact checkSoldCand_none_of_emit _ _ _ _ _ _ hsold'

/-- The invariant holds along every run of crawl cycles. -/
lemma soldRun_inv {α : Type} : ∀ (inps : List (SoldInput α)) (s : SoldState α),
    SoldInv s → SoldInv (soldRun inps s)
  | [], _, h => h
  | i :: r, s, h => soldRun_inv r (soldCycle i s) (soldCycle_inv i s h)

/-- **C9.**  Starting from any state in which no id is both a candidate
and sold (in particular the empty candidate map), after any sequence of
crawl cycles no listing id is simultaneously in the candidate map and in
the confirmed-sold set; an id emitted as newly sold is removed from the
candidate map in that same cycle; and an id already in `sold_ids` has its
candidate entry left untouched (never added or re-added). -/
theorem claim_C9_sold_invariant {α : Type} (s0 : SoldState α)
    (h0 : SoldInv s0) :
    (∀ inps : List (SoldInput α), SoldInv (soldRun inps s0)) ∧
    (∀ (inp : SoldInput α) (s : SoldState α) (pid : α),
        checkSoldEmits inp.now inp.seen inp.current s.sold s.candidates pid
          = true →
        (soldCycle inp s).candidates pid = none) ∧
    (∀ (inp : SoldInput α) (s : SoldState α) (pid : α), s.sold pid = true →
        (soldCycle inp s).candidates pid = s.candidates pid) := by
  refine ⟨fun inps => soldRun_inv inps s0 h0, ?_, ?_⟩
  · intro inp s pid hem
    exact checkSoldCand_none_of_emit _ _ _ _ _ _ hem
  · intro inp s pid hs
    exact checkSoldCand_sold_untouched _ _ _ _ _ _ hs

/-- **C9 witness**: the invariant after a concrete two-cycle run from the
empty initial state. -/
theorem claim_C9_witness :
    SoldInv (soldRun [presentCycle 0, absentCycle 1 300] initSoldState) :=
  (claim_C9_sold_invariant initSoldState
      (fun _ h => absurd h Bool.false_ne_true)).1
    [presentCycle 0, absentCycle 1 300]

/-- Candidate entry of the missing id after an absent cycle. -/
lemma absent_step_cand (pid : ℕ) (t : ℤ) (s : SoldState ℕ) :
    (soldCycle (absentCycle pid t) s).candidates pid =
      if s.sold pid = true then s.candidates pid
      else match s.candidates pid with
        | some u => if SOLD_THRESHOLD ≤ t - u then none else some u
        | none => some t := by
  show checkSoldCand t (fun _ => true) (fun q => decide (q ≠ pid))
    s.sold s.candidates pid = _
  unfold checkSoldCand
  cases hs : s.sold pid <;> simp

/-- Sold flag of the missing id after an absent cycle. -/
lemma absent_step_sold (pid : ℕ) (t : ℤ) (s : SoldState ℕ) :
    (soldCycle (absentCycle pid t) s).sold pid =
      (s.sold pid || match s.candidates pid with
        | some u => decide (SOLD_THRESHOLD ≤ t - u)
        | none => false) := by
  show (s.sold pid || checkSoldEmits t (fun _ => true)
    (fun q => decide (q ≠ pid)) s.sold s.candidates pid) = _
  unfold checkSoldEmits
  cases hs : s.sold pid <;> simp

/-- Emission flag of the missing id in an absent cycle. -/
lemma absent_step_emits (pid : ℕ) (t : ℤ) (s : SoldState ℕ) :
    checkSoldEmits (absentCycle pid t).now (absentCycle pid t).seen
      (absentCycle pid t).current s.sold s.candidates pid =
      (!s.sold pid && match s.candidates pid with
        | some u => decide (SOLD_THRESHOLD ≤ t - u)
        | none => false) := by
  show checkSoldEmits t (fun _ => true) (fun q => decide (q ≠ pid))
    s.sold s.candidates pid = _
  unfold checkSoldEmits
  cases hs : s.sold pid <;> simp

/-- Once an id is in `sold_ids`, no later cycle emits it again. -/
lemma soldRunEmits_zero_of_sold {α : Type} :
    ∀ (inps : List (SoldInput α)) (s : SoldState α) (pid : α),
    s.sold pid = true → soldRunEmits inps s pid = 0
  | [], _, _, _ => rfl
  | i :: r, s, pid, h => by
      have hem : checkSoldEmits i.now i.seen i.current s.sold s.candidates pid
          = false := by
        unfold checkSoldEmits
        rw [h]
        simp
      have hsold2 : (soldCycle i s).sold pid = true := by
        show (s.sold pid || _) = true
        rw [h, Bool.true_or]
      show (if checkSoldEmits i.now i.seen i.current s.sold s.candidates pid
        then 1 else 0) + soldRunEmits r (soldCycle i s) pid = 0
      rw [hem, soldRunEmits_zero_of_sold r (soldCycle i s) pid hsold2]
      rfl

/-- **C5.**  Under `check_sold` with `SOLD_THRESHOLD = 2 × INTERVAL` and
cycles `INTERVAL` apart, starting from no candidates and nothing sold:
(i) a listing present, then absent for exactly one cycle, then present
again is never emitted as sold and ends with its candidacy cleared;
(ii) a listing absent from `n ≥ 3` consecutive cycles — so that its
candidacy, opened at the first miss, reaches age `2 × INTERVAL` =
`SOLD_THRESHOLD` two cycles later — is emitted as confirmed sold exactly
once over the whole run, with no duplicate emission afterwards (the
caller's `sold_ids.update` suppresses re-emission). -/
theorem claim_C5_grace_period (pid : ℕ) (t0 : ℤ) (n : ℕ) (hn : 3 ≤ n) :
    (soldRunEmits [presentCycle t0, absentCycle pid (t0 + INTERVAL),
        presentCycle (t0 + 2 * INTERVAL)] initSoldState pid = 0 ∧
      (soldRun [presentCycle t0, absentCycle pid (t0 + INTERVAL),
        presentCycle (t0 + 2 * INTERVAL)] initSoldState).candidates pid
        = none) ∧
    soldRunEmits (absentRun pid t0 n) initSoldState pid = 1 := by
  constructor
  · constructor
    · simp [soldRunEmits, soldCycle, checkSoldEmits, checkSoldCand,
        presentCycle, absentCycle, initSoldState]
    · simp [soldRun, soldCycle, checkSoldEmits, checkSoldCand,
        presentCycle, absentCycle, initSoldState]
  · obtain ⟨m, rfl⟩ : ∃ m, n = m + 3 := ⟨n - 3, by omega⟩
    have hrun : absentRun pid t0 (m + 3) =
        absentCycle pid t0 :: absentCycle pid (t0 + INTERVAL) ::
        absentCycle pid (t0 + INTERVAL + INTERVAL) ::
        absentRun pid (t0 + INTERVAL + INTERVAL + INTERVAL) m := rfl
    -- state and emission facts for the three leading cycles
    have hc1 : (soldCycle (absentCycle pid t0) initSoldState).candidates pid
        = some t0 := by
      rw [absent_step_cand]
      simp [initSoldState]
    have hs1 : (soldCycle (absentCycle pid t0) initSoldState).sold pid
        = false := by
      rw [absent_step_sold]
      simp [initSoldState]
    have he1 : checkSoldEmits (absentCycle pid t0).now (absentCycle pid t0).seen
        (absentCycle pid t0).current initSoldState.sold
        initSoldState.candidates pid = false := by
      rw [absent_step_emits]
      simp [initSoldState]
    have hc2 : (soldCycle (absentCycle pid (t0 + INTERVAL))
        (soldCycle (absentCycle pid t0) initSoldState)).candidates pid
        = some t0 := by
      rw [absent_step_cand, hs1, hc1]
      simp only [Bool.false_eq_true, if_false]
      rw [if_neg (by unfold SOLD_THRESHOLD INTERVAL; omega)]
    have hs2 : (soldCycle (absentCycle pid (t0 + INTERVAL))
        (soldCycle (absentCycle pid t0) initSoldState)).sold pid = false := by
      rw [absent_step_sold, hs1, hc1]
      simp only [Bool.false_or]
      rw [decide_eq_false (by unfold SOLD_THRESHOLD INTERVAL; omega)]
    have he2 : checkSoldEmits (absentCycle pid (t0 + INTERVAL)).now
        (absentCycle pid (t0 + INTERVAL)).seen
        (absentCycle pid (t0 + INTERVAL)).current
        (soldCycle (absentCycle pid t0) initSoldState).sold
        (soldCycle (absentCycle pid t0) initSoldState).candidates pid
        = false := by
      rw [absent_step_emits, hs1, hc1]
      simp only [Bool.not_false, Bool.true_and]
      exact decide_eq_false (by unfold SOLD_THRESHOLD INTERVAL; omega)
    have he3 : checkSoldEmits (absentCycle pid (t0 + INTERVAL + INTERVAL)).now
        (absentCycle pid (t0 + INTERVAL + INTERVAL)).seen
        (absentCycle pid (t0 + INTERVAL + INTERVAL)).current
        (soldCycle (absentCycle pid (t0 + INTERVAL))
          (soldCycle (absentCycle pid t0) initSoldState)).sold
        (soldCycle (absentCycle pid (t0 + INTERVAL))
          (soldCycle (absentCycle pid t0) initSoldState)).candidates pid
        = true := by
      rw [absent_step_emits, hs2, hc2]
      simp only [Bool.not_false, Bool.true_and]
      exact decide_eq_true (by unfold SOLD_THRESHOLD INTERVAL; omega)
    have hs3 : (soldCycle (absentCycle pid (t0 + INTERVAL + INTERVAL))
        (soldCycle (absentCycle pid (t0 + INTERVAL))
          (soldCycle (absentCycle pid t0) initSoldState))).sold pid
        = true := by
      rw [absent_step_sold, hs2, hc2]
      simp only [Bool.false_or]
      exact decide_eq_true (by unfold SOLD_THRESHOLD INTERVAL; omega)
    rw [hrun]
    show (if checkSoldEmits _ _ _ _ _ pid then 1 else 0) +
      ((if checkSoldEmits _ _ _ _ _ pid then 1 else 0) +
        ((if checkSoldEmits _ _ _ _ _ pid then 1 else 0) +
          soldRunEmits _ _ pid)) = 1
    rw [he1, he2, he3,
      soldRunEmits_zero_of_sold _ _ pid hs3]
    rfl

/-- **C5 witness**: the concrete run — id 7, cycles starting at time 0,
three consecutive absences — emits exactly one confirmed sale, and the
present/absent/present pattern emits none. -/
theorem claim_C5_witness :
    (soldRunEmits [presentCycle 0, absentCycle 7 (0 + INTERVAL),
        presentCycle (0 + 2 * INTERVAL)] initSoldState 7 = 0 ∧
      (soldRun [presentCycle 0, absentCycle 7 (0 + INTERVAL),
        presentCycle (0 + 2 * INTERVAL)] initSoldState).candidates 7
        = none) ∧
    soldRunEmits (absentRun 7 0 3) initSoldState 7 = 1 :=
  claim_C5_grace_period 7 0 3 (by norm_num)

/-! ## Claim C6 — learned appreciation rates -/

/-- `round` is monotone on the reals. -/
lemma round_mono_real {x y : ℝ} (h : x ≤ y) : round x ≤ round y := by
  rw [round_eq, round_eq]
  exact Int.floor_le_floor (by linarith)

/-- The clamped, 4-decimal-rounded rate always lies in [-0.20, 0.30]. -/
lemma round4R_clamp_mem (x : ℝ) :
    -(20/100 : ℝ) ≤ round4R (clampRate x) ∧
    round4R (clampRate x) ≤ 30/100 := by
  have h1 : -(20/100 : ℝ) ≤ clampRate x := le_max_left _ _
  have h2 : clampRate x ≤ 30/100 := max_le (by norm_num) (min_le_left _ _)
  have hlow : (-2000 : ℤ) ≤ round (clampRate x * 10000) := by
    have h := round_mono_real
      (show ((-2000 : ℤ) : ℝ) ≤ clampRate x * 10000 by push_cast; linarith)
    rwa [round_intCast] at h
  have hhigh : round (clampRate x * 10000) ≤ (3000 : ℤ) := by
    have h := round_mono_real
      (show clampRate x * 10000 ≤ ((3000 : ℤ) : ℝ) by push_cast; linarith)
    rwa [round_intCast] at h
  unfold round4R
  constructor
  · rw [le_div_iff₀ (by norm_num : (0:ℝ) < 10000)]
    calc -(20/100 : ℝ) * 10000 = ((-2000 : ℤ) : ℝ) := by norm_num
      _ ≤ (round (clampRate x * 10000) : ℝ) := by exact_mod_cast hlow
  · rw [div_le_iff₀ (by norm_num : (0:ℝ) < 10000)]
    calc (round (clampRate x * 10000) : ℝ) ≤ ((3000 : ℤ) : ℝ) := by
          exact_mod_cast hhigh
      _ = (30/100 : ℝ) * 10000 := by norm_num

/-- `math.pow` succeeds on a non-negative base and positive exponent. -/
lemma pyPow_defined_of_nonneg {x y : ℝ} (hx : 0 ≤ x) (hy : 0 < y) :
    pyPow x y = some (Real.rpow x y) := by
  unfold pyPow
  rw [if_neg (fun h => absurd h.1 (not_lt.mpr hx)),
    if_neg (fun h => absurd h.2 (not_lt.mpr hy.le))]

/-- `math.pow` raises `ValueError` on a negative base with a non-integral
exponent. -/
lemma pyPow_neg_nonint {x y : ℝ} (hx : x < 0)
    (hy : ¬ ∃ n : ℤ, y = (n : ℝ)) : pyPow x y = none := by
  unfold pyPow
  rw [if_pos ⟨hx, hy⟩]

/-- With a positive first midpoint, a non-negative last midpoint and a
positive span, the annualization succeeds and is the `rpow` value. -/
lemma annualizedRate_defined {mid0 mid1 : ℝ} {days : ℤ} (h0 : 0 < mid0)
    (h1 : 0 ≤ mid1) (hd : 0 < days) :
    annualizedRate mid0 mid1 days =
      some (Real.rpow (mid1 / mid0) (1 / ((days : ℝ) / 365)) - 1) := by
  have hdr : (0 : ℝ) < (days : ℝ) := by exact_mod_cast hd
  have hyears : (0 : ℝ) < (days : ℝ) / 365 := div_pos hdr (by norm_num)
  unfold annualizedRate
  rw [if_neg h0.ne']
  simp only []
  rw [if_neg hyears.ne',
    pyPow_defined_of_nonneg (div_nonneg h1 h0.le) (div_pos one_pos hyears)]
  rfl

/-- With a negative ratio and a non-integral exponent, the annualization
dies in `math.pow` (`ValueError`). -/
lemma annualizedRate_crash {mid0 mid1 : ℝ} {days : ℤ} (h0 : mid0 ≠ 0)
    (hneg : mid1 / mid0 < 0)
    (hdz : ((days : ℝ) / 365) ≠ 0)
    (hy : ¬ ∃ n : ℤ, (1 : ℝ) / ((days : ℝ) / 365) = (n : ℝ)) :
    annualizedRate mid0 mid1 days = none := by
  unfold annualizedRate
  rw [if_neg h0]
  simp only []
  rw [if_neg hdz, pyPow_neg_nonint hneg hy]
  rfl

/-- **C6 (amended).**  For every snapshot store: a key with at least 2
snapshots, a first-to-last span of at least `min_days` that is positive,
**a positive first midpoint and a non-negative last midpoint** gets the
annualized rate `(last_mid/first_mid) ^ (365/days) − 1`, clamped to
[-0.20, 0.30] and rounded to 4 decimals; any rate the pass produces lies
in [-0.20, 0.30] no matter how extreme the price ratio; and a key with
fewer than 2 snapshots, an insufficient span, or a non-positive first
midpoint gets no rate (guarded `continue`).  The positivity side
conditions are genuine: a negative last midpoint can make `math.pow`
raise an uncaught `ValueError` (see `claim_C6_counterexample`), so the
code does not assign a clamped rate to every key meeting only the original
claim's conditions. -/
theorem claim_C6_learned_rate_clamped (minDays : ℤ) (snaps : SnapStore)
    (key : String) (e l : SnapEntry)
    (hlen : 2 ≤ (snaps key).length)
    (hh : (snaps key).head? = some e)
    (hl : (snaps key).getLast? = some l)
    (hspan : minDays ≤ l.date - e.date)
    (hdays : 0 < l.date - e.date)
    (hmid : 0 < e.mid)
    (hmid1 : 0 ≤ l.mid) :
    computeLearnedRates minDays snaps key =
      some (some (round4R (clampRate
        (Real.rpow ((l.mid : ℝ) / (e.mid : ℝ))
          (1 / (((l.date - e.date : ℤ) : ℝ) / 365)) - 1)))) ∧
    (∀ r, computeLearnedRates minDays snaps key = some (some r) →
       -(20/100 : ℝ) ≤ r ∧ r ≤ 30/100) ∧
    (∀ pts : List SnapEntry, pts.length < 2 →
       learnedRateFor minDays pts = some none) ∧
    (∀ (pts : List SnapEntry) (e2 l2 : SnapEntry), pts.head? = some e2 →
       pts.getLast? = some l2 → l2.date - e2.date < minDays →
       learnedRateFor minDays pts = some none) ∧
    (∀ (pts : List SnapEntry) (e2 l2 : SnapEntry), pts.head? = some e2 →
       pts.getLast? = some l2 → minDays ≤ l2.date - e2.date → e2.mid ≤ 0 →
       learnedRateFor minDays pts = some none) := by
  have hcast0 : (0 : ℝ) < (e.mid : ℝ) := by exact_mod_cast hmid
  have hcast1 : (0 : ℝ) ≤ (l.mid : ℝ) := by exact_mod_cast hmid1
  have hmain : computeLearnedRates minDays snaps key =
      some (some (round4R (clampRate
        (Real.rpow ((l.mid : ℝ) / (e.mid : ℝ))
          (1 / (((l.date - e.date : ℤ) : ℝ) / 365)) - 1)))) := by
    unfold computeLearnedRates learnedRateFor
    rw [if_neg (not_lt.mpr hlen), hh, hl]
    simp only []
    rw [if_neg (not_lt.mpr hspan), if_neg (not_le.mpr hmid)]
    rw [annualizedRate_defined hcast0 hcast1 hdays]
  refine ⟨hmain, ?_, ?_, ?_, ?_⟩
  · intro r hr
    rw [hmain] at hr
    injection hr with hr
    injection hr with hr
    rw [← hr]
    exact round4R_clamp_mem _
  · intro pts hlt
    unfold learnedRateFor
    rw [if_pos hlt]
  · intro pts e2 l2 hh2 hl2 hd
    unfold learnedRateFor
    by_cases hlen2 : pts.length < 2
    · rw [if_pos hlen2]
    · rw [if_neg hlen2, hh2, hl2]
      simp only []
      rw [if_pos hd]
  · intro pts e2 l2 hh2 hl2 hd hm
    unfold learnedRateFor
    by_cases hlen2 : pts.length < 2
    · rw [if_pos hlen2]
    · rw [if_neg hlen2, hh2, hl2]
      simp only []
      rw [if_neg (not_lt.mpr hd), if_pos hm]

/-- Store refuting C6 as stated, skip case: the key `"k"` has 2 snapshots
spanning 60 ≥ 30 days, but its first midpoint is 0, so the `mid0 <= 0`
guard skips it and no rate is assigned. -/
def c6Store : SnapStore := fun k =>
  if k = "k" then
    [⟨0, 0, 0, 0⟩, ⟨60, 50, 150, 100⟩]
  else []

/-- Store refuting C6 as stated, crash case: the key `"k"` has 2 snapshots
spanning 60 ≥ 30 days with a positive first midpoint, but a negative last
midpoint, so `math.pow(-0.5, 365/60)` raises an uncaught `ValueError`
(negative base, non-integral exponent 73/12) and the whole pass dies. -/
def c6CrashStore : SnapStore := fun k =>
  if k = "k" then
    [⟨0, 50, 150, 100⟩, ⟨60, -100, 0, -50⟩]
  else []

/-- **C6 counterexample.**  Two stores on which the key `"k"` satisfies
the claim's conditions — ≥ 2 snapshots whose first and last dates span
≥ `min_days` = 30 — yet `compute_learned_rates` does not assign the
clamped annualized rate: on `c6Store` (first midpoint 0) the key is
silently skipped (`some none`), and on `c6CrashStore` (first midpoint
100 > 0, last midpoint −50) the pass raises an uncaught `ValueError`
inside `math.pow` (`none`), so no key gets any rate and nothing is
written — in particular no value clamped to [-0.20, 0.30] is produced. -/
theorem claim_C6_counterexample :
    ((c6Store "k").length = 2 ∧
     (c6Store "k").head? = some ⟨0, 0, 0, 0⟩ ∧
     (c6Store "k").getLast? = some ⟨60, 50, 150, 100⟩ ∧
     ((⟨60, 50, 150, 100⟩ : SnapEntry).date -
       (⟨0, 0, 0, 0⟩ : SnapEntry).date) = 60 ∧
     computeLearnedRates 30 c6Store "k" = some none) ∧
    ((c6CrashStore "k").length = 2 ∧
     (c6CrashStore "k").head? = some ⟨0, 50, 150, 100⟩ ∧
     (c6CrashStore "k").getLast? = some ⟨60, -100, 0, -50⟩ ∧
     ((⟨60, -100, 0, -50⟩ : SnapEntry).date -
       (⟨0, 50, 150, 100⟩ : SnapEntry).date) = 60 ∧
     0 < (⟨0, 50, 150, 100⟩ : SnapEntry).mid ∧
     computeLearnedRates 30 c6CrashStore "k" = none) := by
  constructor
  · refine ⟨rfl, rfl, rfl, by norm_num, ?_⟩
    unfold computeLearnedRates learnedRateFor
    rw [show c6Store "k" = [⟨0, 0, 0, 0⟩, ⟨60, 50, 150, 100⟩] from rfl]
    rw [if_neg (by norm_num)]
    simp only [List.head?_cons, List.getLast?_cons_cons]
    rw [show ([⟨60, 50, 150, 100⟩] : List SnapEntry).getLast? =
      some ⟨60, 50, 150, 100⟩ from rfl]
    simp only []
    rw [if_neg (by norm_num), if_pos (by norm_num)]
  · refine ⟨rfl, rfl, rfl, by norm_num, by norm_num, ?_⟩
    have hy : ¬ ∃ n : ℤ,
        (1 : ℝ) / ((((⟨60, -100, 0, -50⟩ : SnapEntry).date -
          (⟨0, 50, 150, 100⟩ : SnapEntry).date : ℤ) : ℝ) / 365) = (n : ℝ) := by
      rintro ⟨n, hn⟩
      rw [show (1 : ℝ) / ((((⟨60, -100, 0, -50⟩ : SnapEntry).date -
          (⟨0, 50, 150, 100⟩ : SnapEntry).date : ℤ) : ℝ) / 365) = 73 / 12
        from by norm_num] at hn
      have h73 : (73 : ℝ) = (n : ℝ) * 12 := (div_eq_iff (by norm_num)).mp hn
      have h73i : (73 : ℤ) = n * 12 := by exact_mod_cast h73
      omega
    unfold computeLearnedRates learnedRateFor
    rw [show c6CrashStore "k" = [⟨0, 50, 150, 100⟩, ⟨60, -100, 0, -50⟩]
      from rfl]
    rw [if_neg (by norm_num)]
    simp only [List.head?_cons, List.getLast?_cons_cons]
    rw [show ([⟨60, -100, 0, -50⟩] : List SnapEntry).getLast? =
      some ⟨60, -100, 0, -50⟩ from rfl]
    simp only []
    rw [if_neg (by norm_num), if_neg (by norm_num)]
    rw [annualizedRate_crash (by norm_num) (by norm_num) (by norm_num) hy]

/-- Store for the C6 witness: two snapshots with equal midpoints 60 days
apart, so the annualized rate is exactly 0. -/
def c6WitStore : SnapStore := fun k =>
  if k = "k" then
    [⟨0, 100, 100, 100⟩, ⟨60, 100, 100, 100⟩]
  else []

/-- **C6 witness**: on `c6WitStore` the computed rate is `some (some 0)`
(ratio 1 annualizes to 0, clamping and rounding fix 0), and it lies in
[-0.20, 0.30]. -/
theorem claim_C6_witness :
    computeLearnedRates 30 c6WitStore "k" = some (some 0) ∧
    -(20/100 : ℝ) ≤ (0 : ℝ) ∧ (0 : ℝ) ≤ 30/100 := by
  have h := claim_C6_learned_rate_clamped 30 c6WitStore "k"
    ⟨0, 100, 100, 100⟩ ⟨60, 100, 100, 100⟩
    (by norm_num [c6WitStore]) rfl rfl (by norm_num) (by norm_num)
    (by norm_num) (by norm_num)
  have h1 := h.1
  have hval : (some (some (round4R (clampRate
      (Real.rpow (((⟨60, 100, 100, 100⟩ : SnapEntry).mid : ℝ) /
          ((⟨0, 100, 100, 100⟩ : SnapEntry).mid : ℝ))
        (1 / ((((⟨60, 100, 100, 100⟩ : SnapEntry).date -
          (⟨0, 100, 100, 100⟩ : SnapEntry).date : ℤ) : ℝ) / 365)) - 1))))
      : Option (Option ℝ)) = some (some 0) := by
    have hbase : (((⟨60, 100, 100, 100⟩ : SnapEntry).mid : ℝ) /
        ((⟨0, 100, 100, 100⟩ : SnapEntry).mid : ℝ)) = 1 := by norm_num
    rw [hbase]
    rw [show Real.rpow (1 : ℝ)
        (1 / ((((⟨60, 100, 100, 100⟩ : SnapEntry).date -
          (⟨0, 100, 100, 100⟩ : SnapEntry).date : ℤ) : ℝ) / 365)) = 1 from
      Real.one_rpow _]
    rw [show (1 : ℝ) - 1 = 0 from by norm_num]
    rw [show clampRate (0 : ℝ) = 0 from by unfold clampRate; norm_num]
    rw [show round4R (0 : ℝ) = 0 from by unfold round4R; norm_num]
  rw [hval] at h1
  exact ⟨h1, by norm_num, by norm_num⟩

end Guitars
